import Mathlib

/-! GraphBinary message serializer of the gremlin-go driver

A shallow embedding of `gremlin-go/driver/serializer.go`.

* A byte is a natural number below 256; a `bytes.Buffer` is the list of the
  bytes it holds (the unread bytes when it is read, the bytes written so far
  when it is written).
* A Go `string` is its sequence of bytes, so `len` is `List.length`.
* A Go `map[string]interface{}` is an association list with pairwise distinct
  keys; the order of the list stands for the order in which `range` visits the
  entries.
* Functions that mutate the request through the pointer they receive return
  the request's state after the call next to their result.
-/

namespace Gremlingo

/-! ## Bytes, strings and fixed-width integers -/

/-- Sequence of bytes, each a natural number below 256. -/
abbrev Bytes := List Nat

/-- Go string: an immutable sequence of bytes. -/
abbrev GoString := List Nat

/-- Every element is a byte. -/
def isBytes (b : Bytes) : Prop := ∀ x ∈ b, x < 256

instance (b : Bytes) : Decidable (isBytes b) := by
  unfold isBytes; infer_instance

/-- The bytes of a string literal of the source (its UTF-8 encoding). -/
def utf8 (s : String) : GoString :=
  s.toList.flatMap (fun c => (String.utf8EncodeChar c).map UInt8.toNat)

/-- Conversion `uint32(n)`. -/
def uint32 (n : Nat) : Nat := n % 2 ^ 32

/-- Conversion `uint16(n)`. -/
def uint16 (n : Nat) : Nat := n % 2 ^ 16

/-- Method `big.Int.Uint64`: the low 64 bits of a non-negative integer. -/
def bigUint64 (n : Nat) : Nat := n % 2 ^ 64

/-- Method `big.Int.Rsh(x, k)` on a non-negative integer. -/
def bigRsh (n k : Nat) : Nat := n / 2 ^ k

/-- The bytes `binary.Write(&buffer, binary.BigEndian, x)` appends for a `uint32`. -/
def putUint32 (x : Nat) : Bytes :=
  [x / 2 ^ 24 % 256, x / 2 ^ 16 % 256, x / 2 ^ 8 % 256, x % 256]

/-- The bytes `binary.Write(&buffer, binary.BigEndian, x)` appends for a `uint64`. -/
def putUint64 (x : Nat) : Bytes :=
  [x / 2 ^ 56 % 256, x / 2 ^ 48 % 256, x / 2 ^ 40 % 256, x / 2 ^ 32 % 256,
   x / 2 ^ 24 % 256, x / 2 ^ 16 % 256, x / 2 ^ 8 % 256, x % 256]

/-- Function `binary.BigEndian.Uint32` on four bytes. -/
def beUint32 (b0 b1 b2 b3 : Nat) : Nat :=
  b0 * 2 ^ 24 + b1 * 2 ^ 16 + b2 * 2 ^ 8 + b3

/-! ## Values, maps, requests, responses, errors -/

/-- Dynamic value held by an `interface{}`.

Modelled from the spec: the `bytecode` type is declared in another file of the
driver; following §3 a bytecode is an ordered sequence of
(step name, list of typed arguments) entries. `other` stands for a value of any
dynamic type that is not `string`, `[]byte` or `bytecode`; `typeName` is what
`reflect.TypeOf(v).Name()` returns for it (empty for an unnamed type). -/
inductive Value where
  | nil
  | string (s : GoString)
  | byteSlice (t : Bytes)
  | bytecode (steps : List (GoString × List Value))
  | other (typeName : String) (repr : Bytes)

/-- Go `map[string]interface{}`. -/
abbrev GoMap := List (GoString × Value)

/-- Map read `m[k]`: the value stored under `k`, the nil interface when absent. -/
def GoMap.get (m : GoMap) (k : GoString) : Value :=
  match m with
  | [] => Value.nil
  | (k0, v) :: rest => if k0 = k then v else GoMap.get rest k

/-- Map write `m[k] = v`: replaces the value of an existing key, adds the entry
otherwise. -/
def GoMap.set (m : GoMap) (k : GoString) (v : Value) : GoMap :=
  match m with
  | [] => [(k, v)]
  | (k0, v0) :: rest => if k0 = k then (k0, v) :: rest else (k0, v0) :: GoMap.set rest k v

/-- The keys of a map are pairwise distinct. -/
def GoMap.wf (m : GoMap) : Prop := (m.map Prod.fst).Nodup

/-- Type name `reflect.TypeOf(v).Name()` of a non-nil `v`. -/
def Value.typeName : Value → String
  | .nil => ""
  | .string _ => "string"
  | .byteSlice _ => ""
  | .bytecode _ => "bytecode"
  | .other n _ => n

/-- Modelled from the spec: the error kinds of the type serializer (§4.2, §7),
which is declared in another file of the driver. -/
inductive CodecError where
  | unsupportedType
  | unknownTag
  | truncatedBuffer
  | invalidMapKey
  | nullKeyForbidden
deriving DecidableEq, Repr

/-- Errors the message serializer returns. -/
inductive Error where
  /-- Error `io.EOF`: nothing left to read. -/
  | eof
  /-- Error `io.ErrUnexpectedEOF`: fewer bytes left than asked for. -/
  | unexpectedEOF
  /-- Error `err0701ReadMapNullKeyError`. -/
  | readMapNullKey
  /-- Error `err0703ReadMapNonStringKeyError` with the key tag read. -/
  | readMapNonStringKey (keyType : Nat)
  /-- Error `err0704ConvertArgsNoSerializerError` with the type name. -/
  | convertArgsNoSerializer (typeName : String)
  /-- An error returned by the type serializer. -/
  | typeSerializer (e : CodecError)
deriving DecidableEq, Repr

instance instDecidableEqExcept {ε α : Type} [DecidableEq ε] [DecidableEq α] :
    DecidableEq (Except ε α) := fun a b =>
  match a, b with
  | .ok x, .ok y => if h : x = y then isTrue (by rw [h]) else isFalse (fun e => h (by cases e; rfl))
  | .error x, .error y =>
    if h : x = y then isTrue (by rw [h]) else isFalse (fun e => h (by cases e; rfl))
  | .ok _, .error _ => isFalse (fun e => by cases e)
  | .error _, .ok _ => isFalse (fun e => by cases e)

/-- Identifier `uuid.UUID`: an array of 16 bytes. -/
abbrev UUID := List Nat

/-- The list is a `[16]byte`. -/
def UUID.wf (u : UUID) : Prop := u.length = 16 ∧ isBytes u

instance (u : UUID) : Decidable (UUID.wf u) := by
  unfold UUID.wf; infer_instance

/-- The zero identifier `uuid.UUID{}`. -/
def UUID.zero : UUID := List.replicate 16 0

/-- Request message. -/
structure request where
  requestID : UUID
  op : GoString
  processor : GoString
  args : GoMap

/-- Status of a response. -/
structure responseStatus where
  code : Nat
  message : GoString
  attributes : GoMap

/-- Result of a response. -/
structure responseResult where
  meta : GoMap
  data : Value

/-- Response message. -/
structure response where
  responseID : UUID
  responseStatus : responseStatus
  responseResult : responseResult

/-- The zero value of `response` (`var msg response`). -/
def response.zero : response :=
  { responseID := UUID.zero
    responseStatus := { code := 0, message := [], attributes := [] }
    responseResult := { meta := [], data := Value.nil } }

/-- The type serializer `graphBinaryTypeSerializer`, declared in another file of
the driver.

Modelled from the spec: `write(value, buffer)` writes tag, nullability flag and
payload to the buffer and `read(buffer)` reads a value from it; their errors
are the kinds of §4.2. `encode v buffer` is the sequence of bytes `write`
appends when the buffer holds `buffer`; `decode buffer` is the value read and
the bytes left unread. -/
structure graphBinaryTypeSerializer where
  encode : Value → Bytes → Except CodecError Bytes
  decode : Bytes → Except CodecError (Value × Bytes)

/-- Method `graphBinaryTypeSerializer.write`: appends the encoding of the value
to the buffer and returns the bytes the buffer then holds. -/
def graphBinaryTypeSerializer.write (s : graphBinaryTypeSerializer) (v : Value)
    (buffer : Bytes) : Except Error Bytes :=
  match s.encode v buffer with
  | .error err => .error (Error.typeSerializer err)
  | .ok enc => .ok (buffer ++ enc)

/-- Method `graphBinaryTypeSerializer.read`: the value read from the buffer and
the bytes left unread. -/
def graphBinaryTypeSerializer.read (s : graphBinaryTypeSerializer) (buffer : Bytes) :
    Except Error (Value × Bytes) :=
  match s.decode buffer with
  | .error err => .error (Error.typeSerializer err)
  | .ok r => .ok r

/-- Serializer `graphBinarySerializer`. -/
structure graphBinarySerializer where
  ser : graphBinaryTypeSerializer

/-- Constants of the driver that are declared outside `serializer.go`. -/
structure Constants where
  /-- The constant `bytecodeProcessor`. -/
  bytecodeProcessor : GoString
  /-- The tag `stringType` of type `dataType`. -/
  stringType : Nat

/-- The constant `graphBinaryMimeType`. -/
def graphBinaryMimeType : GoString := utf8 "application/vnd.graphbinary-v1.0"

/-- The constant `versionByte`. -/
def versionByte : Nat := 0x81

/-! ## Library functions used by the serializer -/

/-- Conversion `byte(n)`. -/
def uint8 (n : Nat) : Nat := n % 256

/-- The digit table of `encoding/hex`. -/
def hextable : GoString := utf8 "0123456789abcdef"

/-- Function `hex.Encode`: two digits per byte, `hextable[v>>4]` then
`hextable[v&0x0f]`. -/
def hexEncode (src : Bytes) : GoString :=
  src.flatMap (fun v => [hextable.getD (v / 16) 0, hextable.getD (v % 16) 0])

/-- The hyphen character. -/
def hyphen : Nat := 0x2D

/-- Method `uuid.UUID.String`: the canonical form
`xxxxxxxx-xxxx-xxxx-xxxx-xxxxxxxxxxxx`. -/
def UUID.String (u : UUID) : GoString :=
  hexEncode (u.take 4) ++ [hyphen] ++ hexEncode ((u.drop 4).take 2) ++ [hyphen]
    ++ hexEncode ((u.drop 6).take 2) ++ [hyphen] ++ hexEncode ((u.drop 8).take 2)
    ++ [hyphen] ++ hexEncode (u.drop 10)

/-- Function `strings.Replace(s, old, "", n)` for a one-byte `old` and `n ≥ 0`:
the first `n` occurrences of `old` are removed. -/
def stringsReplace (old : Nat) : Nat → GoString → GoString
  | 0, s => s
  | _ + 1, [] => []
  | n + 1, ch :: s =>
    if ch = old then stringsReplace old n s else ch :: stringsReplace old (n + 1) s

/-- Value of a base-16 digit, as `big.Int.SetString` reads it. -/
def hexDigitValue (ch : Nat) : Option Nat :=
  if 48 ≤ ch ∧ ch ≤ 57 then some (ch - 48)
  else if 97 ≤ ch ∧ ch ≤ 102 then some (ch - 97 + 10)
  else if 65 ≤ ch ∧ ch ≤ 70 then some (ch - 65 + 10)
  else none

/-- Method `big.Int.SetString(s, 16)` on an unsigned digit string: `none` when
the string is empty or holds a character that is not a base-16 digit. -/
def bigIntSetString16 (s : GoString) : Option Nat :=
  match s with
  | [] => none
  | _ => s.foldlM (fun acc ch => (hexDigitValue ch).map (fun d => acc * 16 + d)) 0

/-- Read of `n` bytes by `binary.Read` (through `io.ReadFull`). -/
def readFull (n : Nat) (buffer : Bytes) : Except Error (Bytes × Bytes) :=
  if n = 0 then .ok ([], buffer)
  else match buffer with
    | [] => .error Error.eof
    | _ => if buffer.length < n then .error Error.unexpectedEOF
           else .ok (buffer.take n, buffer.drop n)

/-- Read of one byte (`buffer.ReadByte`, `binary.Read` into a byte). -/
def readByte (buffer : Bytes) : Except Error (Nat × Bytes) :=
  match buffer with
  | [] => .error Error.eof
  | b :: rest => .ok (b, rest)

/-- Read of a big-endian `uint32` by `binary.Read`. -/
def readUint32 (buffer : Bytes) : Except Error (Nat × Bytes) :=
  match buffer with
  | b0 :: b1 :: b2 :: b3 :: rest => .ok (beUint32 b0 b1 b2 b3, rest)
  | [] => .error Error.eof
  | _ => .error Error.unexpectedEOF

/-! ## The serializer -/

/-- Function `convertArgs`: the returned map and the request after the call. -/
def convertArgs (c : Constants) (request : request) (gs : graphBinarySerializer) :
    Except Error GoMap × Gremlingo.request :=
  if request.op ≠ c.bytecodeProcessor then
    (.ok request.args, request)
  else
    let gremlin := request.args.get (utf8 "gremlin")
    match gremlin with
    | .bytecode _ =>
      match gs.ser.write gremlin [] with
      | .error err => (.error err, request)
      | .ok gremlinBuffer =>
        let request := { request with
          args := request.args.set (utf8 "gremlin") (Value.byteSlice gremlinBuffer) }
        (.ok request.args, request)
    | _ =>
      let typeName : String :=
        match gremlin with
        | .nil => ""
        | _ => gremlin.typeName
      (.error (Error.convertArgsNoSerializer typeName), request)

/-- Function `uuidToBigInt`. -/
def uuidToBigInt (requestID : UUID) : Nat :=
  (bigIntSetString16 (stringsReplace hyphen 4 (UUID.String requestID))).getD 0

/-- Body of the loop over the arguments in `buildMessage`. -/
def buildMessageArg (gs : graphBinarySerializer) (buffer : Bytes) (kv : GoString × Value) :
    Except Error Bytes :=
  match gs.ser.write (Value.string kv.1) buffer with
  | .error err => .error err
  | .ok buffer =>
    match kv.2 with
    | .byteSlice t => .ok (buffer ++ t)
    | t => gs.ser.write t buffer

/-- Method `buildMessage`. -/
def buildMessage (gs : graphBinarySerializer) (id : UUID) (mimeLen : Nat) (op : GoString)
    (processor : GoString) (args : GoMap) : Except Error Bytes :=
  let buffer : Bytes := []
  -- mime header
  let buffer := buffer ++ [mimeLen]
  let buffer := buffer ++ graphBinaryMimeType
  -- Version
  let buffer := buffer ++ [versionByte]
  -- Request uuid
  let bigIntUUID := uuidToBigInt id
  let lower := bigUint64 bigIntUUID
  let upperBigInt := bigRsh bigIntUUID 64
  let upper := bigUint64 upperBigInt
  let buffer := buffer ++ putUint64 upper
  let buffer := buffer ++ putUint64 lower
  -- op
  let buffer := buffer ++ putUint32 (uint32 op.length)
  let buffer := buffer ++ op
  -- processor
  let buffer := buffer ++ putUint32 (uint32 processor.length)
  let buffer := buffer ++ processor
  -- args
  let buffer := buffer ++ putUint32 (uint32 args.length)
  args.foldlM (buildMessageArg gs) buffer

/-- Method `serializeMessage`: the result and the request after the call. -/
def serializeMessage (c : Constants) (gs : graphBinarySerializer) (request : request) :
    Except Error Bytes × Gremlingo.request :=
  match convertArgs c request gs with
  | (.error err, request) => (.error err, request)
  | (.ok args, request) =>
    match buildMessage gs request.requestID (uint8 graphBinaryMimeType.length) request.op
        request.processor args with
    | .error err => (.error err, request)
    | .ok finalMessage => (.ok finalMessage, request)

/-- Function `readUUID`. -/
def readUUID (buffer : Bytes) : Except Error (UUID × Bytes) :=
  match readByte buffer with
  | .error err => .error err
  | .ok (_, buffer) =>
    match readFull 16 buffer with
    | .error err => .error err
    | .ok (uuidBytes, buffer) => .ok (uuidBytes, buffer)

/-- Function `readString`. -/
def readString (buffer : Bytes) : Except Error (GoString × Bytes) :=
  match readUint32 buffer with
  | .error err => .error err
  | .ok (strLength, buffer) =>
    match readFull strLength buffer with
    | .error err => .error err
    | .ok (strBytes, buffer) => .ok (strBytes, buffer)

/-- The loop of `readMap`: `n` entries are still to be read. -/
def readMapLoop (c : Constants) (gs : graphBinarySerializer) :
    Nat → Bytes → GoMap → Except Error (GoMap × Bytes)
  | 0, buffer, mapData => .ok (mapData, buffer)
  | n + 1, buffer, mapData =>
    match readByte buffer with
    | .error err => .error err
    | .ok (keyType, buffer) =>
      if keyType ≠ c.stringType then .error (Error.readMapNonStringKey keyType)
      else
        match readByte buffer with
        | .error err => .error err
        | .ok (nullable, buffer) =>
          if nullable ≠ 0 then .error Error.readMapNullKey
          else
            match readString buffer with
            | .error err => .error err
            | .ok (k, buffer) =>
              match gs.ser.read buffer with
              | .error err => .error err
              | .ok (v, buffer) => readMapLoop c gs n buffer (mapData.set k v)

/-- Function `readMap`. -/
def readMap (c : Constants) (buffer : Bytes) (gs : graphBinarySerializer) :
    Except Error (GoMap × Bytes) :=
  match readUint32 buffer with
  | .error err => .error err
  | .ok (mapSize, buffer) => readMapLoop c gs mapSize buffer []

/-- Method `deserializeMessage`: the response and the error returned. -/
def deserializeMessage (c : Constants) (gs : graphBinarySerializer) (responseMessage : Bytes) :
    response × Option Error :=
  let msg := response.zero
  let buffer := responseMessage
  -- Version
  match readByte buffer with
  | .error err => (msg, some err)
  | .ok (_, buffer) =>
  -- Response uuid
  match readUUID buffer with
  | .error err => (msg, some err)
  | .ok (msgUUID, buffer) =>
  -- Status Code
  match readUint32 buffer with
  | .error err => (msg, some err)
  | .ok (statusCode, buffer) =>
  let statusCode := statusCode &&& 0xFF
  -- Nullable Status message
  match readByte buffer with
  | .error err => (msg, some err)
  | .ok (statusMessageNull, buffer) =>
  match (if statusMessageNull = 0 then readString buffer else .ok ([], buffer)) with
  | .error err => (msg, some err)
  | .ok (statusMessage, buffer) =>
  -- Status Attributes
  match readMap c buffer gs with
  | .error err => (msg, some err)
  | .ok (statusAttributes, buffer) =>
  -- Meta Attributes
  match readMap c buffer gs with
  | .error err => (msg, some err)
  | .ok (metaAttributes, buffer) =>
  -- Result data
  match gs.ser.read buffer with
  | .error err => (msg, some err)
  | .ok (data, _) =>
  ({ responseID := msgUUID
     responseStatus :=
       { code := uint16 statusCode, message := statusMessage, attributes := statusAttributes }
     responseResult := { meta := metaAttributes, data := data } }, none)

/-! ## A type serializer for the examples -/

mutual
/-- Modelled from the spec: the bytes the type serializer writes for a value
(§4.2): tag, nullability flag, payload; a string is a 4-byte length and its
bytes, a bytecode a list of steps, each a name and a list of typed arguments.
Only strings (tag 0x03) and bytecode (tag 0x15) are given an encoder here: the
examples hold no value of another type of §3, and a value of a type outside §3
has none. -/
def sampleEncode : Value → Except CodecError Bytes
  | .string s => .ok ([0x03, 0x00] ++ putUint32 (uint32 s.length) ++ s)
  | .bytecode steps =>
    match sampleEncodeSteps steps with
    | .error err => .error err
    | .ok b => .ok ([0x15, 0x00] ++ putUint32 (uint32 steps.length) ++ b)
  | _ => .error CodecError.unsupportedType
/-- The steps of a bytecode, one after the other. -/
def sampleEncodeSteps : List (GoString × List Value) → Except CodecError Bytes
  | [] => .ok []
  | (name, stepArgs) :: rest =>
    match sampleEncodeArgs stepArgs, sampleEncodeSteps rest with
    | .ok a, .ok r =>
      .ok (putUint32 (uint32 name.length) ++ name ++ putUint32 (uint32 stepArgs.length) ++ a ++ r)
    | .error err, _ => .error err
    | _, .error err => .error err
/-- The arguments of a step, one after the other. -/
def sampleEncodeArgs : List Value → Except CodecError Bytes
  | [] => .ok []
  | v :: rest =>
    match sampleEncode v, sampleEncodeArgs rest with
    | .ok a, .ok r => .ok (a ++ r)
    | .error err, _ => .error err
    | _, .error err => .error err
end

/-- Modelled from the spec: a type serializer that writes strings and bytecode
as §4.2 lays them out and reads strings. -/
def sampleSer : graphBinaryTypeSerializer where
  encode := fun v _ => sampleEncode v
  decode := fun buffer =>
    match buffer with
    | tag :: nullable :: rest =>
      if tag ≠ 0x03 then .error CodecError.unknownTag
      else if nullable ≠ 0 then .ok (Value.nil, rest)
      else
        match readString rest with
        | .error _ => .error CodecError.truncatedBuffer
        | .ok (s, rest) => .ok (Value.string s, rest)
    | _ => .error CodecError.truncatedBuffer

/-- The serializer built on `sampleSer`. -/
def sampleGs : graphBinarySerializer := { ser := sampleSer }

/-- The constants as the driver declares them: `bytecodeProcessor` is the string
`traversal`, the string tag is 0x03. -/
def sampleConstants : Constants :=
  { bytecodeProcessor := utf8 "traversal", stringType := 0x03 }

/-! ## Definitions used to state the properties -/

/-- The integer a sequence of bytes denotes, most significant byte first. -/
def beNat (l : Bytes) : Nat := l.foldl (fun acc b => acc * 256 + b) 0

/-- The bytes of a request up to and including the argument count, as §6 lays
them out: mime length, mime type, version, identifier, operation, processor,
argument count. -/
def requestPreamble (mimeLen : Nat) (idBytes : Bytes) (op processor : GoString)
    (argCount : Nat) : Bytes :=
  [mimeLen] ++ graphBinaryMimeType ++ [0x81] ++ idBytes
    ++ putUint32 op.length ++ op ++ putUint32 processor.length ++ processor
    ++ putUint32 argCount

/-- The bytes of one argument as §4.3 describes them, when the buffer holds
`buffer`: the key written by the type serializer as a string value, then the
value, verbatim when it is a raw byte sequence and written by the type
serializer otherwise. -/
def argEncoding (gs : graphBinarySerializer) (buffer : Bytes) (kv : GoString × Value) :
    Except Error Bytes :=
  match gs.ser.encode (Value.string kv.1) buffer with
  | .error err => .error (Error.typeSerializer err)
  | .ok keyBytes =>
    match kv.2 with
    | .byteSlice r => .ok (keyBytes ++ r)
    | v =>
      match gs.ser.encode v (buffer ++ keyBytes) with
      | .error err => .error (Error.typeSerializer err)
      | .ok valueBytes => .ok (keyBytes ++ valueBytes)

/-- The encodings of the arguments of a map, one per argument, in the order of
the map, when the buffer holds `buffer` before the first. -/
def argEncodings (gs : graphBinarySerializer) (buffer : Bytes) :
    GoMap → Except Error (List Bytes)
  | [] => .ok []
  | kv :: rest =>
    match argEncoding gs buffer kv with
    | .error err => .error err
    | .ok e =>
      match argEncodings gs (buffer ++ e) rest with
      | .error err => .error err
      | .ok es => .ok (e :: es)

/-- The identifier `ffffffff-ffff-ffff-ffff-ffffffffffff`. -/
def allF : UUID := List.replicate 16 0xFF

/-- The identifier `00010203-0405-0607-0809-0a0b0c0d0e0f`. -/
def sampleID : UUID := List.range 16

/-- The request of the end-to-end scenario of §8: operation `eval`, empty
processor, the script `g.V()` under `gremlin`. -/
def evalRequest : request :=
  { requestID := sampleID, op := utf8 "eval", processor := [],
    args := [(utf8 "gremlin", Value.string (utf8 "g.V()"))] }

/-- The map with `n` entries whose keys are the 4-byte encodings of the numbers
below `n` and whose values are empty byte sequences. -/
def numberedArgs (n : Nat) : GoMap :=
  (List.range n).map (fun i => (putUint32 i, Value.byteSlice []))

/-- A request whose argument map has 2^32 entries: the keys are the 4-byte
encodings of the numbers below 2^32, every value is an empty byte sequence. -/
def hugeRequest : request :=
  { requestID := sampleID, op := [], processor := [], args := numberedArgs (2 ^ 32) }

/-- The response buffer of the example: version, flag, identifier, the status
field 0x000001C8, a null status message, two empty maps and the string `A`. -/
def sampleResponse : Bytes :=
  [0x81, 0x00] ++ sampleID ++ [0x00, 0x00, 0x01, 0xC8] ++ [0x01]
    ++ [0, 0, 0, 0] ++ [0, 0, 0, 0] ++ [0x03, 0x00, 0, 0, 0, 1, 0x41]

/-- A request whose operation is the driver's `bytecodeProcessor`, the one
`convertArgs` converts: the bytecode of `g.V()` under `gremlin`. -/
def bytecodeRequest : request :=
  { requestID := sampleID, op := utf8 "traversal", processor := [],
    args := [(utf8 "gremlin", Value.bytecode [(utf8 "V", [])])] }

/-- A request whose operation is the driver's `bytecodeProcessor`, with a
second argument whose value is of Go's type `complex128`, a type outside the
value types of §3, for which the type serializer has no encoder. -/
def mixedRequest : request :=
  { requestID := sampleID, op := utf8 "traversal", processor := [],
    args := [(utf8 "gremlin", Value.bytecode [(utf8 "V", [])]),
             (utf8 "ratio", Value.other "complex128" [1, 2])] }

/-- The key of the argument and its value, when it is not raw, are encoded
without error whatever the buffer holds. -/
def argEncodable (gs : graphBinarySerializer) (kv : GoString × Value) : Prop :=
  (∀ buffer, ∃ e, gs.ser.encode (Value.string kv.1) buffer = .ok e)
  ∧ ((∃ t, kv.2 = Value.byteSlice t) ∨ ∀ buffer, ∃ e, gs.ser.encode kv.2 buffer = .ok e)

/-- A request whose operation is the driver's `bytecodeProcessor` and that
carries a plain string under `gremlin`. -/
def stringRequest : request :=
  { requestID := sampleID, op := utf8 "traversal", processor := [],
    args := [(utf8 "gremlin", Value.string (utf8 "g.V()"))] }

/-- The status message of a response as §6 lays it out: the null flag, and
when the flag is zero the 4-byte length of the message and its bytes. -/
def messageBlock (nullFlag : Nat) (message : GoString) : Bytes :=
  if nullFlag = 0 then [0] ++ putUint32 message.length ++ message else [nullFlag]

/-- The bytes of a response before its status attributes, as §6 lays them out:
version, identifier flag, identifier, status field, status message. -/
def responseHead (version flag : Nat) (id : UUID) (s0 s1 s2 s3 : Nat) (nullFlag : Nat)
    (message : GoString) : Bytes :=
  [version, flag] ++ id ++ [s0, s1, s2, s3] ++ messageBlock nullFlag message

/-- The bytes of one valid map entry `a` ↦ `b` in the encoding of `sampleSer`:
string tag, flag, length-prefixed key, typed string value. -/
def sampleEntry : Bytes := [0x03, 0, 0, 0, 0, 1, 0x61, 0x03, 0, 0, 0, 0, 1, 0x62]

/-- A response cut after its status attributes: identifier, status field
0x000001C8, the message `OK` and an empty map are there, the rest is missing. -/
def truncatedResponse : Bytes :=
  responseHead 0x81 0 sampleID 0 0 1 0xC8 0 (utf8 "OK") ++ [0, 0, 0, 0]

/-- The bytes of one entry of a string-keyed map as §6 lays them out: string
tag, flag 0, length-prefixed key, typed value; `enc` gives the bytes of a typed
value. -/
def entryBytes (c : Constants) (enc : Value → Bytes) (kv : GoString × Value) : Bytes :=
  [c.stringType, 0] ++ putUint32 kv.1.length ++ kv.1 ++ enc kv.2

/-- The bytes of a string-keyed map as §6 lays them out: the 4-byte number of
entries, then the entries. -/
def mapBytes (c : Constants) (enc : Value → Bytes) (m : GoMap) : Bytes :=
  putUint32 m.length ++ m.flatMap (entryBytes c enc)

/-- The bytes of a response as §6 lays them out: version, identifier flag,
identifier, status word, status message, status attributes, meta attributes,
result. -/
def responseBytes (c : Constants) (enc : Value → Bytes) (version flag : Nat) (u : UUID)
    (w nullFlag : Nat) (message : GoString) (statusAttributes metaAttributes : GoMap)
    (v : Value) : Bytes :=
  [version, flag] ++ u ++ putUint32 w ++ messageBlock nullFlag message
    ++ mapBytes c enc statusAttributes ++ mapBytes c enc metaAttributes ++ enc v

/-- The bytes `sampleSer` writes for a value, none when it has no encoder. -/
def sampleEnc (v : Value) : Bytes :=
  match sampleEncode v with
  | .ok b => b
  | .error _ => []

/-! ## Identifier encoding -/

theorem hextable_getD_ne_hyphen (i : Nat) : hextable.getD i 0 ≠ hyphen := by
  by_cases h : i < 16
  · interval_cases i <;> decide
  · have : hextable.length ≤ i := by
      have : hextable.length = 16 := by decide
      omega
    rw [List.getD_eq_default _ _ this]; decide

theorem hexDigitValue_hextable (d : Nat) (h : d < 16) :
    hexDigitValue (hextable.getD d 0) = some d := by
  interval_cases d <;> decide

theorem hexEncode_append (a b : Bytes) : hexEncode (a ++ b) = hexEncode a ++ hexEncode b := by
  simp [hexEncode]

theorem stringsReplace_hexEncode (n : Nat) (l : Bytes) (rest : GoString) :
    stringsReplace hyphen n (hexEncode l ++ rest) = hexEncode l ++ stringsReplace hyphen n rest := by
  induction l with
  | nil => simp [hexEncode]
  | cons b l ih =>
    cases n with
    | zero => simp [stringsReplace]
    | succ n =>
      have h1 := hextable_getD_ne_hyphen (b / 16)
      have h2 := hextable_getD_ne_hyphen (b % 16)
      have e : hexEncode (b :: l) = hextable.getD (b / 16) 0 :: hextable.getD (b % 16) 0 :: hexEncode l := by
        simp [hexEncode]
      rw [e]
      simp only [List.cons_append, stringsReplace, if_neg h1, if_neg h2]
      exact congrArg _ (congrArg _ ih)

theorem stringsReplace_hyphen (n : Nat) (rest : GoString) :
    stringsReplace hyphen (n + 1) (hyphen :: rest) = stringsReplace hyphen n rest := by
  simp [stringsReplace]

theorem take_drop_pieces (u : Bytes) :
    u.take 4 ++ ((u.drop 4).take 2 ++ ((u.drop 6).take 2 ++ ((u.drop 8).take 2 ++ u.drop 10))) = u := by
  have e1 : u.drop 10 = (u.drop 8).drop 2 := by simp
  have e2 : u.drop 8 = (u.drop 6).drop 2 := by simp
  have e3 : u.drop 6 = (u.drop 4).drop 2 := by simp
  rw [e1, List.take_append_drop, e2, List.take_append_drop, e3, List.take_append_drop,
    List.take_append_drop]

theorem stringsReplace_String (u : UUID) :
    stringsReplace hyphen 4 (UUID.String u) = hexEncode u := by
  unfold UUID.String
  simp only [List.append_assoc, List.singleton_append, List.cons_append, List.nil_append]
  rw [stringsReplace_hexEncode, stringsReplace_hyphen 3, stringsReplace_hexEncode,
    stringsReplace_hyphen 2, stringsReplace_hexEncode, stringsReplace_hyphen 1,
    stringsReplace_hexEncode, stringsReplace_hyphen 0]
  simp only [stringsReplace]
  rw [← hexEncode_append, ← hexEncode_append, ← hexEncode_append, ← hexEncode_append,
    take_drop_pieces]

theorem foldlM_hexEncode (l : Bytes) (h : isBytes l) (acc : Nat) :
    (hexEncode l).foldlM (fun acc ch => (hexDigitValue ch).map (fun d => acc * 16 + d)) acc
      = some (l.foldl (fun acc b => acc * 256 + b) acc) := by
  induction l generalizing acc with
  | nil => simp [hexEncode]
  | cons b l ih =>
    have hb : b < 256 := h b (by simp)
    have hl : isBytes l := fun x hx => h x (by simp [hx])
    have e : hexEncode (b :: l) = hextable.getD (b / 16) 0 :: hextable.getD (b % 16) 0 :: hexEncode l := by
      simp [hexEncode]
    rw [e]
    simp only [List.foldlM_cons, hexDigitValue_hextable (b / 16) (by omega),
      hexDigitValue_hextable (b % 16) (Nat.mod_lt _ (by decide)), Option.map_some', Option.bind_eq_bind, Option.some_bind]
    rw [ih hl]
    simp only [List.foldl_cons]
    congr 2
    omega

theorem bigIntSetString16_hexEncode (b : Nat) (l : Bytes) (h : isBytes (b :: l)) :
    bigIntSetString16 (hexEncode (b :: l)) = some (beNat (b :: l)) := by
  have e : hexEncode (b :: l) = hextable.getD (b / 16) 0 :: hextable.getD (b % 16) 0 :: hexEncode l := by
    simp [hexEncode]
  unfold bigIntSetString16
  rw [e]
  simp only []
  rw [← e]
  exact foldlM_hexEncode (b :: l) h 0

theorem uuidToBigInt_eq (u : UUID) (h : UUID.wf u) : uuidToBigInt u = beNat u := by
  unfold uuidToBigInt
  rw [stringsReplace_String]
  obtain ⟨hl, hb⟩ := h
  match u, hl, hb with
  | b :: l, _, hb => rw [bigIntSetString16_hexEncode b l hb]; rfl

theorem putUint64_halves (u : UUID) (h : UUID.wf u) :
    putUint64 (bigUint64 (bigRsh (beNat u) 64)) ++ putUint64 (bigUint64 (beNat u)) = u := by
  obtain ⟨hl, hb⟩ := h
  match u, hl, hb with
  | [b0, b1, b2, b3, b4, b5, b6, b7, b8, b9, b10, b11, b12, b13, b14, b15], _, hb =>
    have h0 := hb b0 (by simp)
    have h1 := hb b1 (by simp)
    have h2 := hb b2 (by simp)
    have h3 := hb b3 (by simp)
    have h4 := hb b4 (by simp)
    have h5 := hb b5 (by simp)
    have h6 := hb b6 (by simp)
    have h7 := hb b7 (by simp)
    have h8 := hb b8 (by simp)
    have h9 := hb b9 (by simp)
    have h10 := hb b10 (by simp)
    have h11 := hb b11 (by simp)
    have h12 := hb b12 (by simp)
    have h13 := hb b13 (by simp)
    have h14 := hb b14 (by simp)
    have h15 := hb b15 (by simp)
    simp only [beNat, List.foldl_cons, List.foldl_nil, putUint64, bigUint64, bigRsh, List.cons_append, List.nil_append, List.cons.injEq, and_true]
    refine ⟨?_, ?_, ?_, ?_, ?_, ?_, ?_, ?_, ?_, ?_, ?_, ?_, ?_, ?_, ?_, ?_⟩ <;> omega

/-! ## Shape of a built message -/

/-- The identifier bytes `buildMessage` writes: upper half, then lower half. -/
theorem idBytes_length (n : Nat) :
    (putUint64 (bigUint64 (bigRsh n 64)) ++ putUint64 (bigUint64 n)).length = 16 := by
  simp [putUint64]

theorem buildMessageArg_eq (gs : graphBinarySerializer) (buffer : Bytes) (kv : GoString × Value) :
    buildMessageArg gs buffer kv
      = match argEncoding gs buffer kv with
        | .error err => .error err
        | .ok e => .ok (buffer ++ e) := by
  obtain ⟨k, v⟩ := kv
  unfold buildMessageArg argEncoding graphBinaryTypeSerializer.write
  cases h : gs.ser.encode (Value.string k) buffer with
  | error err => rfl
  | ok keyBytes =>
    cases v with
    | byteSlice r => simp
    | nil => simp only []; cases gs.ser.encode Value.nil (buffer ++ keyBytes) <;> simp
    | string s => simp only []; cases gs.ser.encode (Value.string s) (buffer ++ keyBytes) <;> simp
    | bytecode b => simp only []; cases gs.ser.encode (Value.bytecode b) (buffer ++ keyBytes) <;> simp
    | other n r => simp only []; cases gs.ser.encode (Value.other n r) (buffer ++ keyBytes) <;> simp

theorem foldlM_buildMessageArg (gs : graphBinarySerializer) (args : GoMap) (buffer : Bytes) :
    args.foldlM (buildMessageArg gs) buffer
      = match argEncodings gs buffer args with
        | .error err => .error err
        | .ok es => .ok (buffer ++ es.flatten) := by
  induction args generalizing buffer with
  | nil => simp [argEncodings, pure, Except.pure]
  | cons kv rest ih =>
    rw [List.foldlM_cons, buildMessageArg_eq]
    simp only [argEncodings]
    cases h : argEncoding gs buffer kv with
    | error err => rfl
    | ok e =>
      simp only [bind, Except.bind]
      rw [ih]
      cases argEncodings gs (buffer ++ e) rest with
      | error err => rfl
      | ok es => simp

theorem argEncodings_length (gs : graphBinarySerializer) (args : GoMap) (buffer : Bytes)
    (es : List Bytes) (h : argEncodings gs buffer args = .ok es) : es.length = args.length := by
  induction args generalizing buffer es with
  | nil => simp [argEncodings] at h; simp [← h]
  | cons kv rest ih =>
    simp only [argEncodings] at h
    cases h1 : argEncoding gs buffer kv with
    | error err => simp [h1] at h
    | ok e =>
      simp only [h1] at h
      cases h2 : argEncodings gs (buffer ++ e) rest with
      | error err => simp [h2] at h
      | ok es1 =>
        simp only [h2, Except.ok.injEq] at h
        rw [← h, List.length_cons, List.length_cons, ih _ _ h2]

theorem buildMessage_eq (gs : graphBinarySerializer) (id : UUID) (mimeLen : Nat)
    (op processor : GoString) (args : GoMap) :
    buildMessage gs id mimeLen op processor args
      = args.foldlM (buildMessageArg gs)
          ([mimeLen] ++ graphBinaryMimeType ++ [versionByte]
            ++ (putUint64 (bigUint64 (bigRsh (uuidToBigInt id) 64))
                ++ putUint64 (bigUint64 (uuidToBigInt id)))
            ++ (putUint32 (uint32 op.length) ++ op ++ putUint32 (uint32 processor.length)
                ++ processor ++ putUint32 (uint32 args.length))) := by
  unfold buildMessage
  simp only [List.append_assoc, List.nil_append]

theorem buildMessage_shape (gs : graphBinarySerializer) (id : UUID) (mimeLen : Nat)
    (op processor : GoString) (args : GoMap) (msg : Bytes)
    (h : buildMessage gs id mimeLen op processor args = .ok msg) :
    ∃ tail, msg = ([mimeLen] ++ graphBinaryMimeType ++ [versionByte])
      ++ (putUint64 (bigUint64 (bigRsh (uuidToBigInt id) 64))
          ++ putUint64 (bigUint64 (uuidToBigInt id))) ++ tail := by
  rw [buildMessage_eq, foldlM_buildMessageArg] at h
  revert h
  cases argEncodings gs _ args with
  | error err => intro h; cases h
  | ok es =>
    intro h
    simp only [Except.ok.injEq] at h
    exact ⟨_, by rw [← h, List.append_assoc, List.append_assoc]⟩

theorem take_drop_middle (a b t : Bytes) (n m : Nat) (ha : a.length = n) (hb : b.length = m) :
    ((a ++ b ++ t).drop n).take m = b := by
  subst ha hb
  rw [List.append_assoc, List.drop_left, List.take_left]

theorem header_length (mimeLen : Nat) :
    ([mimeLen] ++ graphBinaryMimeType ++ [versionByte]).length = 34 := by
  have h : graphBinaryMimeType.length = 32 := by decide
  simp [h]

theorem buildMessage_idBytes (gs : graphBinarySerializer) (id : UUID) (mimeLen : Nat)
    (op processor : GoString) (args : GoMap) (msg : Bytes)
    (h : buildMessage gs id mimeLen op processor args = .ok msg) :
    (msg.drop 34).take 16 = putUint64 (bigUint64 (bigRsh (uuidToBigInt id) 64))
          ++ putUint64 (bigUint64 (uuidToBigInt id)) := by
  obtain ⟨tail, rfl⟩ := buildMessage_shape gs id mimeLen op processor args msg h
  exact take_drop_middle _ _ _ 34 16 (header_length mimeLen) (idBytes_length _)

theorem readFull_append (u rest : Bytes) : readFull u.length (u ++ rest) = .ok (u, rest) := by
  cases u with
  | nil => simp [readFull]
  | cons a u1 => simp [readFull]

theorem readUUID_ok (flag : Nat) (u : UUID) (rest : Bytes) (h : u.length = 16) :
    readUUID (flag :: (u ++ rest)) = .ok (u, rest) := by
  have e := readFull_append u rest
  rw [h] at e
  simp [readUUID, readByte, e]

/-- C1. Identifier round trip: the 16 identifier bytes that `buildMessage`
writes for a 128-bit identifier `u` (bytes 34 to 49 of the message: upper then
lower 64-bit half, big-endian, of the integer parsed from the hyphen-free hex
string of `u`), prefixed with one flag byte, are decoded by `readUUID` to
exactly `u`, without error. -/
theorem identifier_round_trip (gs : graphBinarySerializer) (u : UUID) (mimeLen : Nat)
    (op processor : GoString) (args : GoMap) (msg : Bytes) (flag : Nat) (rest : Bytes)
    (hu : UUID.wf u) (h : buildMessage gs u mimeLen op processor args = .ok msg) :
    readUUID (flag :: ((msg.drop 34).take 16 ++ rest)) = .ok (u, rest) := by
  rw [buildMessage_idBytes gs u mimeLen op processor args msg h, uuidToBigInt_eq u hu,
    putUint64_halves u hu]
  exact readUUID_ok flag u rest hu.1

/-- Witness of C1 at the all-F identifier. -/
theorem identifier_round_trip_witness :
    UUID.wf allF
    ∧ buildMessage sampleGs allF 32 (utf8 "eval") [] []
        = .ok (requestPreamble 32 allF (utf8 "eval") [] 0)
    ∧ readUUID (0 :: (((requestPreamble 32 allF (utf8 "eval") [] 0).drop 34).take 16 ++ []))
        = .ok (allF, []) :=
  ⟨by decide, by decide,
    identifier_round_trip sampleGs allF 32 (utf8 "eval") [] []
      (requestPreamble 32 allF (utf8 "eval") [] 0) 0 [] (by decide) (by decide)⟩

theorem beNat_lt (u : UUID) (h : UUID.wf u) : beNat u < 2 ^ 128 := by
  obtain ⟨hl, hb⟩ := h
  match u, hl, hb with
  | [b0, b1, b2, b3, b4, b5, b6, b7, b8, b9, b10, b11, b12, b13, b14, b15], _, hb =>
    have h0 := hb b0 (by simp)
    have h1 := hb b1 (by simp)
    have h2 := hb b2 (by simp)
    have h3 := hb b3 (by simp)
    have h4 := hb b4 (by simp)
    have h5 := hb b5 (by simp)
    have h6 := hb b6 (by simp)
    have h7 := hb b7 (by simp)
    have h8 := hb b8 (by simp)
    have h9 := hb b9 (by simp)
    have h10 := hb b10 (by simp)
    have h11 := hb b11 (by simp)
    have h12 := hb b12 (by simp)
    have h13 := hb b13 (by simp)
    have h14 := hb b14 (by simp)
    have h15 := hb b15 (by simp)
    simp only [beNat, List.foldl_cons, List.foldl_nil]
    omega

/-- C3. For every identifier `u`, the integer `buildMessage` derives from the
hyphen-free hex string of `u` is the 128-bit integer whose big-endian bytes are
those of `u`; bytes 34 to 41 of the message are the big-endian encoding of that
integer divided by 2^64, bytes 42 to 49 that of the integer modulo 2^64, and
the 16 bytes together are the raw bytes of `u` in stored order. -/
theorem identifier_bytes (gs : graphBinarySerializer) (u : UUID) (mimeLen : Nat)
    (op processor : GoString) (args : GoMap) (msg : Bytes)
    (hu : UUID.wf u) (h : buildMessage gs u mimeLen op processor args = .ok msg) :
    uuidToBigInt u = beNat u ∧ uuidToBigInt u < 2 ^ 128
    ∧ (msg.drop 34).take 8 = putUint64 (uuidToBigInt u / 2 ^ 64)
    ∧ (msg.drop 42).take 8 = putUint64 (uuidToBigInt u % 2 ^ 64)
    ∧ (msg.drop 34).take 16 = u := by
  have hN := uuidToBigInt_eq u hu
  have hlt := beNat_lt u hu
  have hup : bigUint64 (bigRsh (uuidToBigInt u) 64) = uuidToBigInt u / 2 ^ 64 := by
    unfold bigUint64 bigRsh
    rw [hN]
    exact Nat.mod_eq_of_lt (by omega)
  have hlo : bigUint64 (uuidToBigInt u) = uuidToBigInt u % 2 ^ 64 := rfl
  obtain ⟨tail, rfl⟩ := buildMessage_shape gs u mimeLen op processor args msg h
  rw [hup, hlo]
  refine ⟨hN, hN ▸ hlt, ?_, ?_, ?_⟩
  · have e := take_drop_middle ([mimeLen] ++ graphBinaryMimeType ++ [versionByte])
      (putUint64 (uuidToBigInt u / 2 ^ 64)) (putUint64 (uuidToBigInt u % 2 ^ 64) ++ tail) 34 8
      (header_length mimeLen) (by simp [putUint64])
    simp only [List.append_assoc] at e ⊢
    exact e
  · have e := take_drop_middle
      ([mimeLen] ++ graphBinaryMimeType ++ [versionByte] ++ putUint64 (uuidToBigInt u / 2 ^ 64))
      (putUint64 (uuidToBigInt u % 2 ^ 64)) tail 42 8
      (by rw [List.length_append, header_length]; simp [putUint64]) (by simp [putUint64])
    simp only [List.append_assoc] at e ⊢
    exact e
  · have e := take_drop_middle ([mimeLen] ++ graphBinaryMimeType ++ [versionByte])
      (putUint64 (uuidToBigInt u / 2 ^ 64) ++ putUint64 (uuidToBigInt u % 2 ^ 64)) tail 34 16
      (header_length mimeLen) (by simp [putUint64])
    rw [e]
    have e2 := putUint64_halves u hu
    rw [← hN] at e2
    rw [← hup, ← hlo]
    exact e2

/-- Witness of C3 at the all-F identifier (sixteen bytes 0xFF) and at the
all-zero identifier (sixteen bytes 0x00). -/
theorem identifier_bytes_witness :
    (UUID.wf allF
      ∧ buildMessage sampleGs allF 32 [] [] [] = .ok (requestPreamble 32 allF [] [] 0)
      ∧ ((requestPreamble 32 allF [] [] 0).drop 34).take 16 = List.replicate 16 0xFF)
    ∧ (UUID.wf UUID.zero
      ∧ buildMessage sampleGs UUID.zero 32 [] [] [] = .ok (requestPreamble 32 UUID.zero [] [] 0)
      ∧ ((requestPreamble 32 UUID.zero [] [] 0).drop 34).take 16 = List.replicate 16 0x00) :=
  ⟨⟨by decide, by decide,
    (identifier_bytes sampleGs allF 32 [] [] [] (requestPreamble 32 allF [] [] 0)
      (by decide) (by decide)).2.2.2.2⟩,
   ⟨by decide, by decide,
    (identifier_bytes sampleGs UUID.zero 32 [] [] [] (requestPreamble 32 UUID.zero [] [] 0)
      (by decide) (by decide)).2.2.2.2⟩⟩

/-! ## Conversion of the arguments -/

/-- The type name `convertArgs` reports for a value that is not a bytecode. -/
theorem convertArgs_not_bytecode (c : Constants) (r : request) (gs : graphBinarySerializer)
    (hop : r.op = c.bytecodeProcessor) (hg : ∀ b, r.args.get (utf8 "gremlin") ≠ Value.bytecode b) :
    convertArgs c r gs
      = (.error (Error.convertArgsNoSerializer (r.args.get (utf8 "gremlin")).typeName), r) := by
  unfold convertArgs
  rw [if_neg (not_not.mpr hop)]
  revert hg
  cases r.args.get (utf8 "gremlin") with
  | bytecode b => intro hg; exact absurd rfl (hg b)
  | nil => intro _; rfl
  | string s => intro _; rfl
  | byteSlice t => intro _; rfl
  | other n t => intro _; rfl

theorem convertArgs_other_op (c : Constants) (r : request) (gs : graphBinarySerializer)
    (hop : r.op ≠ c.bytecodeProcessor) : convertArgs c r gs = (.ok r.args, r) := by
  unfold convertArgs
  rw [if_pos hop]

theorem convertArgs_bytecode (c : Constants) (r : request) (gs : graphBinarySerializer)
    (b : List (GoString × List Value))
    (hop : r.op = c.bytecodeProcessor) (hg : r.args.get (utf8 "gremlin") = Value.bytecode b) :
    convertArgs c r gs
      = match gs.ser.encode (Value.bytecode b) [] with
        | .error err => (.error (Error.typeSerializer err), r)
        | .ok g =>
          (.ok (r.args.set (utf8 "gremlin") (Value.byteSlice g)),
            { r with args := r.args.set (utf8 "gremlin") (Value.byteSlice g) }) := by
  unfold convertArgs
  rw [if_neg (not_not.mpr hop)]
  simp only [hg, graphBinaryTypeSerializer.write]
  cases gs.ser.encode (Value.bytecode b) [] with
  | error err => rfl
  | ok g => simp

/-- What `convertArgs` leaves behind: the request is the one it received, but
for the arguments, which are the map it returns when it succeeds. -/
theorem convertArgs_frame (c : Constants) (r : request) (gs : graphBinarySerializer) :
    (convertArgs c r gs).2.requestID = r.requestID
    ∧ (convertArgs c r gs).2.op = r.op
    ∧ (convertArgs c r gs).2.processor = r.processor
    ∧ (∀ args, (convertArgs c r gs).1 = .ok args → (convertArgs c r gs).2.args = args)
    ∧ (∀ err, (convertArgs c r gs).1 = .error err → (convertArgs c r gs).2 = r) := by
  by_cases hop : r.op = c.bytecodeProcessor
  · by_cases hg : ∃ b, r.args.get (utf8 "gremlin") = Value.bytecode b
    · obtain ⟨b, hb⟩ := hg
      rw [convertArgs_bytecode c r gs b hop hb]
      cases gs.ser.encode (Value.bytecode b) [] with
      | error err => simp
      | ok g => simp
    · rw [convertArgs_not_bytecode c r gs hop (fun b hb => hg ⟨b, hb⟩)]
      simp
  · rw [convertArgs_other_op c r gs hop]
    simp

theorem serializeMessage_eq (c : Constants) (gs : graphBinarySerializer) (r : request) :
    serializeMessage c gs r
      = match (convertArgs c r gs).1 with
        | .error err => (.error err, (convertArgs c r gs).2)
        | .ok args =>
          (buildMessage gs r.requestID 32 r.op r.processor args, (convertArgs c r gs).2) := by
  have hf := convertArgs_frame c r gs
  unfold serializeMessage
  have h32 : uint8 graphBinaryMimeType.length = 32 := by decide
  rw [h32]
  rcases hc : convertArgs c r gs with ⟨res, r1⟩
  rw [hc] at hf
  simp only at hf
  obtain ⟨h1, h2, h3, -, -⟩ := hf
  cases res with
  | error err => rfl
  | ok args =>
    simp only [h1, h2, h3]
    cases buildMessage gs r.requestID 32 r.op r.processor args <;> rfl

theorem GoMap.length_set_of_get (m : GoMap) (k : GoString) (v : Value)
    (h : m.get k ≠ Value.nil) : (m.set k v).length = m.length := by
  induction m with
  | nil => simp [GoMap.get] at h
  | cons kv rest ih =>
    obtain ⟨k0, v0⟩ := kv
    by_cases hk : k0 = k
    · simp [GoMap.set, hk]
    · simp only [GoMap.get, if_neg hk] at h
      simp [GoMap.set, hk, ih h]

theorem convertArgs_length (c : Constants) (r : request) (gs : graphBinarySerializer)
    (args : GoMap) (h : (convertArgs c r gs).1 = .ok args) : args.length = r.args.length := by
  by_cases hop : r.op = c.bytecodeProcessor
  · by_cases hg : ∃ b, r.args.get (utf8 "gremlin") = Value.bytecode b
    · obtain ⟨b, hb⟩ := hg
      rw [convertArgs_bytecode c r gs b hop hb] at h
      revert h
      cases gs.ser.encode (Value.bytecode b) [] with
      | error err => intro h; cases h
      | ok g =>
        intro h
        simp only [Except.ok.injEq] at h
        rw [← h]
        exact GoMap.length_set_of_get _ _ _ (by rw [hb]; intro e; cases e)
    · rw [convertArgs_not_bytecode c r gs hop (fun b hb => hg ⟨b, hb⟩)] at h
      cases h
  · rw [convertArgs_other_op c r gs hop] at h
    simp only [Except.ok.injEq] at h
    rw [h]

theorem putUint32_uint32 (n : Nat) : putUint32 (uint32 n) = putUint32 n := by
  simp only [putUint32, uint32, List.cons.injEq, and_true]
  refine ⟨?_, ?_, ?_, ?_⟩ <;> omega

theorem beNat_putUint32 (n : Nat) (h : n < 2 ^ 32) : beNat (putUint32 n) = n := by
  simp only [beNat, putUint32, List.foldl_cons, List.foldl_nil]
  omega

theorem isBytes_putUint32 (n : Nat) : isBytes (putUint32 n) := by
  intro x hx
  simp only [putUint32, List.mem_cons, List.mem_singleton, List.not_mem_nil, or_false] at hx
  rcases hx with h | h | h | h <;> rw [h] <;> exact Nat.mod_lt _ (by decide)

/-! ## Layout of a request -/

/-- C2 (amended). For every request on which `serializeMessage` succeeds, with
operation and processor shorter than 2^32 bytes and fewer than 2^32 arguments,
the bytes returned are: the byte 0x20, the 32 bytes of the mime type, the byte
0x81, the 16 identifier bytes (upper then lower 64-bit half of the integer of
the identifier, which are the 16 bytes of the identifier of the request), the
4-byte big-endian length of the operation and
the operation, the 4-byte big-endian length of the processor and the
processor, the 4-byte big-endian number of arguments, and then one
(key, value) encoding per argument of the map, in the order of the map. -/
theorem request_layout (c : Constants) (gs : graphBinarySerializer) (r r1 : request)
    (bytes : Bytes) (h : serializeMessage c gs r = (.ok bytes, r1))
    (hop : r.op.length < 2 ^ 32) (hproc : r.processor.length < 2 ^ 32)
    (hargs : r.args.length < 2 ^ 32) :
    ∃ idBytes lenOp lenProc count encs,
      bytes = [0x20] ++ utf8 "application/vnd.graphbinary-v1.0" ++ [0x81] ++ idBytes
                ++ lenOp ++ r.op ++ lenProc ++ r.processor ++ count ++ encs.flatten
      ∧ (utf8 "application/vnd.graphbinary-v1.0").length = 32
      ∧ idBytes.length = 16
      ∧ idBytes = putUint64 (bigUint64 (bigRsh (uuidToBigInt r.requestID) 64))
                    ++ putUint64 (bigUint64 (uuidToBigInt r.requestID))
      ∧ (UUID.wf r.requestID → idBytes = r.requestID)
      ∧ (lenOp = putUint32 r.op.length ∧ lenOp.length = 4 ∧ isBytes lenOp
          ∧ beNat lenOp = r.op.length)
      ∧ (lenProc = putUint32 r.processor.length ∧ lenProc.length = 4 ∧ isBytes lenProc
          ∧ beNat lenProc = r.processor.length)
      ∧ (count = putUint32 r.args.length ∧ count.length = 4 ∧ isBytes count
          ∧ beNat count = r.args.length)
      ∧ r1.args.length = r.args.length
      ∧ encs.length = r1.args.length
      ∧ argEncodings gs
          ([0x20] ++ utf8 "application/vnd.graphbinary-v1.0" ++ [0x81] ++ idBytes
                ++ lenOp ++ r.op ++ lenProc ++ r.processor ++ count) r1.args = .ok encs := by
  rw [serializeMessage_eq] at h
  have hf := convertArgs_frame c r gs
  have hlen := convertArgs_length c r gs
  revert h hf hlen
  cases (convertArgs c r gs).1 with
  | error err => intro h; simp at h
  | ok args =>
    intro h hf hlen
    simp only [Prod.mk.injEq] at h
    obtain ⟨hb, hr1⟩ := h
    have ha : r1.args = args := by rw [← hr1]; exact hf.2.2.2.1 args rfl
    have hl : args.length = r.args.length := hlen args rfl
    rw [buildMessage_eq, foldlM_buildMessageArg, putUint32_uint32, putUint32_uint32,
      putUint32_uint32] at hb
    revert hb
    cases he : argEncodings gs _ args with
    | error err => intro hb; cases hb
    | ok encs =>
      intro hb
      simp only [Except.ok.injEq] at hb
      refine ⟨putUint64 (bigUint64 (bigRsh (uuidToBigInt r.requestID) 64))
                ++ putUint64 (bigUint64 (uuidToBigInt r.requestID)),
              putUint32 r.op.length, putUint32 r.processor.length, putUint32 args.length, encs,
              ?_, by decide, idBytes_length _, rfl, ?_,
              ⟨rfl, rfl, isBytes_putUint32 _, beNat_putUint32 _ hop⟩,
              ⟨rfl, rfl, isBytes_putUint32 _, beNat_putUint32 _ hproc⟩,
              ⟨by rw [hl], rfl, isBytes_putUint32 _, ?_⟩, ?_, ?_, ?_⟩
      · rw [← hb]
        simp only [graphBinaryMimeType, versionByte, List.append_assoc]
      · intro hw
        rw [uuidToBigInt_eq _ hw]
        exact putUint64_halves _ hw
      · rw [hl]; exact beNat_putUint32 _ hargs
      · rw [ha, hl]
      · rw [ha]; exact argEncodings_length gs args _ encs he
      · rw [ha, ← he]
        simp only [graphBinaryMimeType, versionByte, List.append_assoc]

/-- Witness of C2: the end-to-end scenario of §8; the identifier is well formed
and its 16 bytes are the identifier field of the message. -/
theorem request_layout_witness :
    UUID.wf evalRequest.requestID
    ∧ (serializeMessage sampleConstants sampleGs evalRequest).1
        = .ok ([0x20] ++ utf8 "application/vnd.graphbinary-v1.0" ++ [0x81] ++ sampleID
            ++ [0, 0, 0, 4] ++ utf8 "eval" ++ [0, 0, 0, 0] ++ [0, 0, 0, 1]
            ++ ([0x03, 0x00, 0, 0, 0, 7] ++ utf8 "gremlin")
            ++ ([0x03, 0x00, 0, 0, 0, 5] ++ utf8 "g.V()"))
    ∧ ∃ idBytes lenOp lenProc count encs,
      ([0x20] ++ utf8 "application/vnd.graphbinary-v1.0" ++ [0x81] ++ sampleID
            ++ [0, 0, 0, 4] ++ utf8 "eval" ++ [0, 0, 0, 0] ++ [0, 0, 0, 1]
            ++ ([0x03, 0x00, 0, 0, 0, 7] ++ utf8 "gremlin")
            ++ ([0x03, 0x00, 0, 0, 0, 5] ++ utf8 "g.V()"))
        = [0x20] ++ utf8 "application/vnd.graphbinary-v1.0" ++ [0x81] ++ idBytes
                ++ lenOp ++ evalRequest.op ++ lenProc ++ evalRequest.processor ++ count
                ++ encs.flatten
      ∧ (utf8 "application/vnd.graphbinary-v1.0").length = 32
      ∧ idBytes.length = 16
      ∧ idBytes = putUint64 (bigUint64 (bigRsh (uuidToBigInt evalRequest.requestID) 64))
                    ++ putUint64 (bigUint64 (uuidToBigInt evalRequest.requestID))
      ∧ (UUID.wf evalRequest.requestID → idBytes = evalRequest.requestID)
      ∧ (lenOp = putUint32 evalRequest.op.length ∧ lenOp.length = 4 ∧ isBytes lenOp
          ∧ beNat lenOp = evalRequest.op.length)
      ∧ (lenProc = putUint32 evalRequest.processor.length ∧ lenProc.length = 4
          ∧ isBytes lenProc ∧ beNat lenProc = evalRequest.processor.length)
      ∧ (count = putUint32 evalRequest.args.length ∧ count.length = 4 ∧ isBytes count
          ∧ beNat count = evalRequest.args.length)
      ∧ evalRequest.args.length = evalRequest.args.length
      ∧ encs.length = evalRequest.args.length
      ∧ argEncodings sampleGs
          ([0x20] ++ utf8 "application/vnd.graphbinary-v1.0" ++ [0x81] ++ idBytes
                ++ lenOp ++ evalRequest.op ++ lenProc ++ evalRequest.processor ++ count)
          evalRequest.args = .ok encs :=
  ⟨by decide, by decide,
   request_layout sampleConstants sampleGs evalRequest evalRequest _ (by rfl) (by decide)
     (by decide) (by decide)⟩

theorem argEncodings_sample_raw (args : GoMap) (buffer : Bytes)
    (h : ∀ kv ∈ args, ∃ t, kv.2 = Value.byteSlice t) :
    ∃ es, argEncodings sampleGs buffer args = .ok es := by
  induction args generalizing buffer with
  | nil => exact ⟨[], rfl⟩
  | cons kv rest ih =>
    obtain ⟨k, v⟩ := kv
    obtain ⟨t, ht⟩ := h (k, v) (by simp)
    simp only at ht
    subst ht
    have e : argEncoding sampleGs buffer (k, Value.byteSlice t)
        = .ok ([0x03, 0x00] ++ putUint32 (uint32 k.length) ++ k ++ t) := by
      simp [argEncoding, sampleGs, sampleSer, sampleEncode]
    obtain ⟨es, hes⟩ := ih (buffer ++ ([0x03, 0x00] ++ putUint32 (uint32 k.length) ++ k ++ t))
      (fun kv hkv => h kv (by simp [hkv]))
    exact ⟨([0x03, 0x00] ++ putUint32 (uint32 k.length) ++ k ++ t) :: es, by
      simp only [argEncodings, e, hes]⟩

theorem putUint32_injOn (i j : Nat) (hi : i < 2 ^ 32) (hj : j < 2 ^ 32)
    (h : putUint32 i = putUint32 j) : i = j := by
  simp only [putUint32, List.cons.injEq, and_true] at h
  omega

theorem numberedArgs_length (n : Nat) : (numberedArgs n).length = n := by
  simp [numberedArgs]

theorem numberedArgs_raw (n : Nat) : ∀ kv ∈ numberedArgs n, ∃ t, kv.2 = Value.byteSlice t := by
  intro kv hkv
  unfold numberedArgs at hkv
  rw [List.mem_map] at hkv
  obtain ⟨i, -, hi⟩ := hkv
  exact ⟨[], by rw [← hi]⟩

theorem numberedArgs_wf (n : Nat) (h : n ≤ 2 ^ 32) : GoMap.wf (numberedArgs n) := by
  unfold GoMap.wf numberedArgs
  simp only [List.map_map]
  refine List.Nodup.map_on ?_ (List.nodup_range _)
  intro i hi j hj e
  simp only [Function.comp] at e
  have hi2 := List.mem_range.mp hi
  have hj2 := List.mem_range.mp hj
  exact putUint32_injOn i j (by omega) (by omega) e

theorem count_field_of_raw_args (r : request) (hop : r.op = []) (hproc : r.processor = [])
    (hraw : ∀ kv ∈ r.args, ∃ t, kv.2 = Value.byteSlice t) :
    ∃ (bytes : Bytes) (encs : List Bytes),
      serializeMessage sampleConstants sampleGs r = (.ok bytes, r)
      ∧ (bytes.drop 58).take 4 = putUint32 (uint32 r.args.length)
      ∧ bytes.drop 62 = encs.flatten ∧ encs.length = r.args.length := by
  have hne : r.op ≠ sampleConstants.bytecodeProcessor := by
    rw [hop]
    show ([] : GoString) ≠ utf8 "traversal"
    decide
  obtain ⟨es, hes⟩ := argEncodings_sample_raw r.args
    ([32] ++ graphBinaryMimeType ++ [versionByte]
            ++ (putUint64 (bigUint64 (bigRsh (uuidToBigInt r.requestID) 64))
                ++ putUint64 (bigUint64 (uuidToBigInt r.requestID)))
            ++ (putUint32 (uint32 r.op.length) ++ r.op
                ++ putUint32 (uint32 r.processor.length)
                ++ r.processor ++ putUint32 (uint32 r.args.length))) hraw
  have hser : serializeMessage sampleConstants sampleGs r
      = (.ok (([32] ++ graphBinaryMimeType ++ [versionByte]
            ++ (putUint64 (bigUint64 (bigRsh (uuidToBigInt r.requestID) 64))
                ++ putUint64 (bigUint64 (uuidToBigInt r.requestID)))
            ++ (putUint32 (uint32 r.op.length) ++ r.op
                ++ putUint32 (uint32 r.processor.length)
                ++ r.processor ++ putUint32 (uint32 r.args.length))) ++ es.flatten), r) := by
    rw [serializeMessage_eq, convertArgs_other_op _ _ _ hne]
    simp only []
    rw [buildMessage_eq, foldlM_buildMessageArg, hes]
  have hpre : ([32] ++ graphBinaryMimeType ++ [versionByte]
            ++ (putUint64 (bigUint64 (bigRsh (uuidToBigInt r.requestID) 64))
                ++ putUint64 (bigUint64 (uuidToBigInt r.requestID)))
            ++ (putUint32 (uint32 r.op.length) ++ r.op
                ++ putUint32 (uint32 r.processor.length)
                ++ r.processor)).length = 58 := by
    have h := header_length 32
    have h2 := idBytes_length (uuidToBigInt r.requestID)
    rw [List.length_append, List.length_append, h, h2, hop, hproc]
    simp [putUint32]
  have hfield := take_drop_middle _ (putUint32 (uint32 r.args.length)) es.flatten 58 4
    hpre (by simp [putUint32])
  refine ⟨_, es, hser, ?_, ?_, argEncodings_length _ _ _ _ hes⟩
  · simp only [List.append_assoc] at hfield ⊢
    exact hfield
  · have hl : (([32] ++ graphBinaryMimeType ++ [versionByte]
            ++ (putUint64 (bigUint64 (bigRsh (uuidToBigInt r.requestID) 64))
                ++ putUint64 (bigUint64 (uuidToBigInt r.requestID)))
            ++ (putUint32 (uint32 r.op.length) ++ r.op
                ++ putUint32 (uint32 r.processor.length)
                ++ r.processor ++ putUint32 (uint32 r.args.length)))).length
          = 62 := by
      have e : ∀ (a b cnt : Bytes), a ++ (b ++ cnt) = (a ++ b) ++ cnt := by
        intro a b cnt; simp only [List.append_assoc]
      rw [e, List.length_append, hpre]
      simp [putUint32]
    rw [← hl, List.drop_left]

/-- Counterexample to C2 as stated: a request with 2^32 arguments (distinct
4-byte keys, empty raw values) and empty operation and processor is serialized
without error, and the 4-byte argument count at bytes 58 to 61 of the result is
zero, not the number of arguments, although 2^32 encodings follow it. -/
theorem request_layout_counterexample :
    ∃ (bytes : Bytes) (encs : List Bytes),
      serializeMessage sampleConstants sampleGs hugeRequest = (.ok bytes, hugeRequest)
      ∧ hugeRequest.op.length < 2 ^ 32 ∧ hugeRequest.processor.length < 2 ^ 32
      ∧ GoMap.wf hugeRequest.args
      ∧ hugeRequest.args.length = 2 ^ 32
      ∧ (bytes.drop 58).take 4 = [0, 0, 0, 0]
      ∧ beNat ((bytes.drop 58).take 4) ≠ hugeRequest.args.length
      ∧ bytes.drop 62 = encs.flatten ∧ encs.length = 2 ^ 32 := by
  have hargs : hugeRequest.args = numberedArgs (2 ^ 32) := by simp only [hugeRequest]
  have hop : hugeRequest.op = [] := rfl
  have hproc : hugeRequest.processor = [] := rfl
  obtain ⟨bytes, encs, hser, hfield, hrest, hlen⟩ :=
    count_field_of_raw_args hugeRequest hop hproc (hargs ▸ numberedArgs_raw (2 ^ 32))
  have hcount : putUint32 (uint32 (2 ^ 32)) = [0, 0, 0, 0] := by decide
  rw [hargs, numberedArgs_length] at hfield hlen
  rw [hcount] at hfield
  refine ⟨bytes, encs, hser, ?_, ?_, ?_, ?_, hfield, ?_, hrest, hlen⟩
  · rw [hop]; decide
  · rw [hproc]; decide
  · rw [hargs]; exact numberedArgs_wf _ (Nat.le_refl _)
  · rw [hargs]; exact numberedArgs_length _
  · rw [hfield, hargs, numberedArgs_length]
    decide

/-! ## Reading -/

theorem readByte_ok (buffer : Bytes) (b : Nat) (rest : Bytes)
    (h : readByte buffer = .ok (b, rest)) : buffer = b :: rest := by
  cases buffer with
  | nil => simp [readByte] at h
  | cons x xs => simp [readByte] at h; rw [h.1, h.2]

theorem readUint32_ok (buffer : Bytes) (n : Nat) (rest : Bytes)
    (h : readUint32 buffer = .ok (n, rest)) :
    ∃ b0 b1 b2 b3, buffer = b0 :: b1 :: b2 :: b3 :: rest ∧ n = beUint32 b0 b1 b2 b3 := by
  unfold readUint32 at h
  split at h
  · rename_i b0 b1 b2 b3 rest1
    simp only [Except.ok.injEq, Prod.mk.injEq] at h
    exact ⟨b0, b1, b2, b3, by rw [h.2], h.1.symm⟩
  · cases h
  · cases h

theorem readFull_ok (n : Nat) (buffer taken rest : Bytes)
    (h : readFull n buffer = .ok (taken, rest)) :
    buffer = taken ++ rest ∧ taken.length = n := by
  unfold readFull at h
  split at h
  · rename_i h0
    simp only [Except.ok.injEq, Prod.mk.injEq] at h
    rw [← h.1, ← h.2, h0]; simp
  · split at h
    · cases h
    · split at h
      · cases h
      · rename_i hlen
        simp only [Except.ok.injEq, Prod.mk.injEq] at h
        rw [← h.1, ← h.2]
        exact ⟨(List.take_append_drop n buffer).symm, by rw [List.length_take]; omega⟩

theorem readUUID_inv (buffer : Bytes) (id : UUID) (rest : Bytes)
    (h : readUUID buffer = .ok (id, rest)) :
    ∃ flag, buffer = flag :: (id ++ rest) ∧ id.length = 16 := by
  unfold readUUID at h
  split at h
  · cases h
  · rename_i flag buffer1 hb
    split at h
    · cases h
    · rename_i uuidBytes buffer2 hf
      simp only [Except.ok.injEq, Prod.mk.injEq] at h
      obtain ⟨e1, e2⟩ := readFull_ok 16 buffer1 uuidBytes buffer2 hf
      refine ⟨flag, ?_, by rw [← h.1]; exact e2⟩
      rw [readByte_ok buffer flag buffer1 hb, e1, h.1, h.2]

theorem mask_eq_mod (n : Nat) : n &&& 0xFF = n % 256 :=
  Nat.and_pow_two_sub_one_eq_mod n 8

/-- The fields `deserializeMessage` has read when it succeeds. -/
theorem deserializeMessage_inv (c : Constants) (gs : graphBinarySerializer) (buffer : Bytes)
    (resp : response) (h : deserializeMessage c gs buffer = (resp, none)) :
    ∃ version flag id b0 b1 b2 b3 rest,
      buffer = version :: flag :: (id ++ b0 :: b1 :: b2 :: b3 :: rest)
      ∧ id.length = 16
      ∧ resp.responseID = id
      ∧ resp.responseStatus.code = uint16 (beUint32 b0 b1 b2 b3 &&& 0xFF) := by
  unfold deserializeMessage at h
  simp only at h
  split at h
  · simp at h
  · rename_i version buffer1 h1
    split at h
    · simp at h
    · rename_i id buffer2 h2
      split at h
      · simp at h
      · rename_i statusCode buffer3 h3
        split at h
        · simp at h
        · split at h
          · simp at h
          · split at h
            · simp at h
            · split at h
              · simp at h
              · split at h
                · simp at h
                · simp only [Prod.mk.injEq, and_true] at h
                  obtain ⟨flag, e2, hid⟩ := readUUID_inv buffer1 id buffer2 h2
                  obtain ⟨b0, b1, b2, b3, e3, hn⟩ := readUint32_ok buffer2 statusCode buffer3 h3
                  refine ⟨version, flag, id, b0, b1, b2, b3, buffer3, ?_, hid, ?_, ?_⟩
                  · rw [readByte_ok buffer version buffer1 h1, e2, e3]
                  · rw [← h]
                  · rw [← h, hn]

/-- C4. Status code masking: for every response buffer that
`deserializeMessage` decodes without error, the status code returned is the
4-byte big-endian status field (bytes 18 to 21 of the buffer) masked with
0xFF, so it lies in 0..255 and the top byte of the 16-bit code is zero. -/
theorem status_code_masked (c : Constants) (gs : graphBinarySerializer) (buffer : Bytes)
    (resp : response) (h : deserializeMessage c gs buffer = (resp, none)) :
    ∃ b0 b1 b2 b3, (buffer.drop 18).take 4 = [b0, b1, b2, b3]
      ∧ resp.responseStatus.code = beUint32 b0 b1 b2 b3 &&& 0xFF
      ∧ resp.responseStatus.code = beUint32 b0 b1 b2 b3 % 256
      ∧ resp.responseStatus.code < 256
      ∧ resp.responseStatus.code / 256 = 0 := by
  obtain ⟨version, flag, id, b0, b1, b2, b3, rest, hb, hid, -, hcode⟩ :=
    deserializeMessage_inv c gs buffer resp h
  have hm := mask_eq_mod (beUint32 b0 b1 b2 b3)
  have hlt : beUint32 b0 b1 b2 b3 % 256 < 256 := Nat.mod_lt _ (by decide)
  have hcode2 : resp.responseStatus.code = beUint32 b0 b1 b2 b3 % 256 := by
    rw [hcode, hm, uint16]
    exact Nat.mod_eq_of_lt (by omega)
  refine ⟨b0, b1, b2, b3, ?_, by rw [hm]; exact hcode2, hcode2, by omega, by omega⟩
  have e2 : buffer = [version, flag] ++ id ++ ([b0, b1, b2, b3] ++ rest) := by
    rw [hb]; simp
  rw [e2]
  have e3 := take_drop_middle ([version, flag] ++ id) [b0, b1, b2, b3] rest 18 4
    (by simp [hid]) rfl
  simp only [List.append_assoc] at e3 ⊢
  exact e3

/-- Witness of C4: the raw status field 0x000001C8 (456) decodes to 200. -/
theorem status_code_masked_witness :
    (deserializeMessage sampleConstants sampleGs sampleResponse).2 = none
    ∧ (sampleResponse.drop 18).take 4 = [0x00, 0x00, 0x01, 0xC8]
    ∧ beUint32 0x00 0x00 0x01 0xC8 = 456
    ∧ (deserializeMessage sampleConstants sampleGs sampleResponse).1.responseStatus.code = 200
    ∧ ∃ b0 b1 b2 b3, (sampleResponse.drop 18).take 4 = [b0, b1, b2, b3]
      ∧ (deserializeMessage sampleConstants sampleGs sampleResponse).1.responseStatus.code
          = beUint32 b0 b1 b2 b3 &&& 0xFF
      ∧ (deserializeMessage sampleConstants sampleGs sampleResponse).1.responseStatus.code
          = beUint32 b0 b1 b2 b3 % 256
      ∧ (deserializeMessage sampleConstants sampleGs sampleResponse).1.responseStatus.code < 256
      ∧ (deserializeMessage sampleConstants sampleGs sampleResponse).1.responseStatus.code / 256
          = 0 :=
  ⟨by decide, by decide, by decide, by decide,
   status_code_masked sampleConstants sampleGs sampleResponse
     (deserializeMessage sampleConstants sampleGs sampleResponse).1 (by rfl)⟩

/-! ## Pre-encoding of the bytecode -/

theorem GoMap.split_of_get (m : GoMap) (k : GoString) (v : Value) (h : m.get k = v)
    (hv : v ≠ Value.nil) :
    ∃ m1 m2, m = m1 ++ (k, v) :: m2 ∧ (∀ kv ∈ m1, kv.1 ≠ k)
      ∧ ∀ w, m.set k w = m1 ++ (k, w) :: m2 := by
  induction m with
  | nil => simp only [GoMap.get] at h; exact absurd h.symm hv
  | cons kv rest ih =>
    obtain ⟨k0, v0⟩ := kv
    by_cases hk : k0 = k
    · simp only [GoMap.get, if_pos hk] at h
      subst hk h
      exact ⟨[], rest, rfl, by simp, fun w => by simp [GoMap.set]⟩
    · simp only [GoMap.get, if_neg hk] at h
      obtain ⟨m1, m2, e, h1, h2⟩ := ih h
      refine ⟨(k0, v0) :: m1, m2, by rw [e]; rfl, ?_, ?_⟩
      · intro kv hkv
        rcases List.mem_cons.mp hkv with e1 | e1
        · rw [e1]; exact hk
        · exact h1 kv e1
      · intro w
        simp only [GoMap.set, if_neg hk, h2 w, List.cons_append]

theorem GoMap.wf_tail_ne (m1 m2 : GoMap) (k : GoString) (v : Value)
    (h : GoMap.wf (m1 ++ (k, v) :: m2)) : ∀ kv ∈ m2, kv.1 ≠ k := by
  unfold GoMap.wf at h
  rw [List.map_append, List.map_cons] at h
  have h2 := (List.nodup_append.mp h).2.1
  have h3 := (List.nodup_cons.mp h2).1
  intro kv hkv e
  have hmem : kv.1 ∈ m2.map Prod.fst := List.mem_map_of_mem _ hkv
  rw [e] at hmem
  exact h3 hmem

theorem argEncoding_ok (gs : graphBinarySerializer) (buffer : Bytes) (kv : GoString × Value)
    (h : argEncodable gs kv) : ∃ e, argEncoding gs buffer kv = .ok e := by
  obtain ⟨k, v⟩ := kv
  obtain ⟨hk, hv⟩ := h
  obtain ⟨ke, hke⟩ := hk buffer
  unfold argEncoding
  simp only [hke]
  rcases hv with ⟨t, ht⟩ | hv
  · simp only at ht
    subst ht
    exact ⟨_, rfl⟩
  · obtain ⟨ve, hve⟩ := hv (buffer ++ ke)
    simp only at hve
    cases v with
    | byteSlice t => exact ⟨_, rfl⟩
    | nil => simp only [hve]; exact ⟨_, rfl⟩
    | string s => simp only [hve]; exact ⟨_, rfl⟩
    | bytecode b => simp only [hve]; exact ⟨_, rfl⟩
    | other n t => simp only [hve]; exact ⟨_, rfl⟩

theorem argEncodings_ok (gs : graphBinarySerializer) (args : GoMap) (buffer : Bytes)
    (h : ∀ kv ∈ args, argEncodable gs kv) : ∃ es, argEncodings gs buffer args = .ok es := by
  induction args generalizing buffer with
  | nil => exact ⟨[], rfl⟩
  | cons kv rest ih =>
    obtain ⟨e, he⟩ := argEncoding_ok gs buffer kv (h kv (by simp))
    obtain ⟨es, hes⟩ := ih (buffer ++ e) (fun kv hkv => h kv (by simp [hkv]))
    exact ⟨e :: es, by simp only [argEncodings, he, hes]⟩

theorem argEncodings_append (gs : graphBinarySerializer) (a1 a2 : GoMap) (buffer : Bytes)
    (es1 es2 : List Bytes) (h1 : argEncodings gs buffer a1 = .ok es1)
    (h2 : argEncodings gs (buffer ++ es1.flatten) a2 = .ok es2) :
    argEncodings gs buffer (a1 ++ a2) = .ok (es1 ++ es2) := by
  induction a1 generalizing buffer es1 with
  | nil =>
    simp only [argEncodings, Except.ok.injEq] at h1
    subst h1
    simpa using h2
  | cons kv rest ih =>
    simp only [argEncodings] at h1
    cases he : argEncoding gs buffer kv with
    | error err => simp [he] at h1
    | ok e =>
      simp only [he] at h1
      cases hr : argEncodings gs (buffer ++ e) rest with
      | error err => simp [hr] at h1
      | ok es =>
        simp only [hr, Except.ok.injEq] at h1
        subst h1
        have h3 : argEncodings gs (buffer ++ e) (rest.append a2) = .ok (es ++ es2) :=
          ih (buffer ++ e) es hr (by simpa using h2)
        simp only [List.cons_append, argEncodings, he, h3]


/-- C5 (amended). Bytecode pre-encoding: for every request whose operation is
the bytecode-evaluation operation, whose `args["gremlin"]` is a bytecode value
`b` that `write` encodes to `g` in an empty buffer, and whose argument keys and
other argument values are all encoded without error, `serializeMessage`
succeeds, and in its output the encoding of the key `gremlin` is followed by
exactly `g`, then by the encodings of the arguments that come after it. -/
theorem bytecode_preencoding (c : Constants) (gs : graphBinarySerializer) (r : request)
    (b : List (GoString × List Value)) (g : Bytes)
    (hop : r.op = c.bytecodeProcessor)
    (hg : r.args.get (utf8 "gremlin") = Value.bytecode b)
    (hw : gs.ser.write (Value.bytecode b) [] = .ok g)
    (hwf : GoMap.wf r.args)
    (henc : ∀ kv ∈ r.args, kv.1 ≠ utf8 "gremlin" → argEncodable gs kv)
    (hkey : ∀ buffer, ∃ e, gs.ser.encode (Value.string (utf8 "gremlin")) buffer = .ok e) :
    ∃ (bytes : Bytes) (r1 : request) (args1 args2 : GoMap) (es1 es2 : List Bytes)
      (keyBytes : Bytes),
      serializeMessage c gs r = (.ok bytes, r1)
      ∧ r.args = args1 ++ (utf8 "gremlin", Value.bytecode b) :: args2
      ∧ argEncodings gs
          (requestPreamble 32
            (putUint64 (bigUint64 (bigRsh (uuidToBigInt r.requestID) 64))
              ++ putUint64 (bigUint64 (uuidToBigInt r.requestID)))
            r.op r.processor r.args.length) args1 = .ok es1
      ∧ gs.ser.encode (Value.string (utf8 "gremlin"))
          (requestPreamble 32
            (putUint64 (bigUint64 (bigRsh (uuidToBigInt r.requestID) 64))
              ++ putUint64 (bigUint64 (uuidToBigInt r.requestID)))
            r.op r.processor r.args.length ++ es1.flatten) = .ok keyBytes
      ∧ argEncodings gs
          (requestPreamble 32
            (putUint64 (bigUint64 (bigRsh (uuidToBigInt r.requestID) 64))
              ++ putUint64 (bigUint64 (uuidToBigInt r.requestID)))
            r.op r.processor r.args.length ++ es1.flatten ++ keyBytes ++ g) args2 = .ok es2
      ∧ bytes = requestPreamble 32
            (putUint64 (bigUint64 (bigRsh (uuidToBigInt r.requestID) 64))
              ++ putUint64 (bigUint64 (uuidToBigInt r.requestID)))
            r.op r.processor r.args.length ++ es1.flatten ++ keyBytes ++ g ++ es2.flatten := by
  have hg2 : gs.ser.encode (Value.bytecode b) [] = .ok g := by
    unfold graphBinaryTypeSerializer.write at hw
    revert hw
    cases gs.ser.encode (Value.bytecode b) [] with
    | error err => intro hw; cases hw
    | ok enc => intro hw; simpa using hw
  obtain ⟨args1, args2, hsplit, -, hset⟩ :=
    GoMap.split_of_get r.args (utf8 "gremlin") (Value.bytecode b) hg (by intro e; cases e)
  have hne2 := GoMap.wf_tail_ne args1 args2 (utf8 "gremlin") (Value.bytecode b) (hsplit ▸ hwf)
  have hne1 : ∀ kv ∈ args1, kv.1 ≠ utf8 "gremlin" := by
    unfold GoMap.wf at hwf
    rw [hsplit, List.map_append, List.map_cons] at hwf
    have hd := (List.nodup_append.mp hwf).2.2
    intro kv hkv e
    exact hd (List.mem_map_of_mem Prod.fst hkv) (by rw [e]; simp) 
  have hpre : ([32] ++ graphBinaryMimeType ++ [versionByte]
            ++ (putUint64 (bigUint64 (bigRsh (uuidToBigInt r.requestID) 64))
                ++ putUint64 (bigUint64 (uuidToBigInt r.requestID)))
            ++ (putUint32 (uint32 r.op.length) ++ r.op ++ putUint32 (uint32 r.processor.length)
                ++ r.processor
                ++ putUint32 (uint32 (r.args.set (utf8 "gremlin") (Value.byteSlice g)).length)))
      = requestPreamble 32
            (putUint64 (bigUint64 (bigRsh (uuidToBigInt r.requestID) 64))
              ++ putUint64 (bigUint64 (uuidToBigInt r.requestID)))
            r.op r.processor r.args.length := by
    rw [GoMap.length_set_of_get _ _ _ (by rw [hg]; intro e; cases e), putUint32_uint32,
      putUint32_uint32, putUint32_uint32]
    simp only [requestPreamble, versionByte, List.append_assoc]
  obtain ⟨es1, hes1⟩ := argEncodings_ok gs args1
    (requestPreamble 32
            (putUint64 (bigUint64 (bigRsh (uuidToBigInt r.requestID) 64))
              ++ putUint64 (bigUint64 (uuidToBigInt r.requestID)))
            r.op r.processor r.args.length)
    (fun kv hkv => henc kv (by rw [hsplit]; simp [hkv]) (hne1 kv hkv))
  obtain ⟨keyBytes, hkb⟩ := hkey (requestPreamble 32
            (putUint64 (bigUint64 (bigRsh (uuidToBigInt r.requestID) 64))
              ++ putUint64 (bigUint64 (uuidToBigInt r.requestID)))
            r.op r.processor r.args.length ++ es1.flatten)
  obtain ⟨es2, hes2⟩ := argEncodings_ok gs args2
    (requestPreamble 32
            (putUint64 (bigUint64 (bigRsh (uuidToBigInt r.requestID) 64))
              ++ putUint64 (bigUint64 (uuidToBigInt r.requestID)))
            r.op r.processor r.args.length ++ es1.flatten ++ keyBytes ++ g)
    (fun kv hkv => henc kv (by rw [hsplit]; simp [hkv]) (hne2 kv hkv))
  have hall : argEncodings gs (requestPreamble 32
            (putUint64 (bigUint64 (bigRsh (uuidToBigInt r.requestID) 64))
              ++ putUint64 (bigUint64 (uuidToBigInt r.requestID)))
            r.op r.processor r.args.length)
        (args1 ++ (utf8 "gremlin", Value.byteSlice g) :: args2)
      = .ok (es1 ++ (keyBytes ++ g) :: es2) := by
    refine argEncodings_append gs args1 _ _ es1 _ hes1 ?_
    have hone : argEncoding gs (requestPreamble 32
            (putUint64 (bigUint64 (bigRsh (uuidToBigInt r.requestID) 64))
              ++ putUint64 (bigUint64 (uuidToBigInt r.requestID)))
            r.op r.processor r.args.length ++ es1.flatten)
          (utf8 "gremlin", Value.byteSlice g) = .ok (keyBytes ++ g) := by
      simp only [argEncoding, hkb]
    simp only [argEncodings, hone]
    have hes2b : argEncodings gs (requestPreamble 32
            (putUint64 (bigUint64 (bigRsh (uuidToBigInt r.requestID) 64))
              ++ putUint64 (bigUint64 (uuidToBigInt r.requestID)))
            r.op r.processor r.args.length ++ es1.flatten ++ (keyBytes ++ g)) args2
          = .ok es2 := by
      rw [← hes2]; simp only [List.append_assoc]
    rw [hes2b]
  refine ⟨requestPreamble 32
            (putUint64 (bigUint64 (bigRsh (uuidToBigInt r.requestID) 64))
              ++ putUint64 (bigUint64 (uuidToBigInt r.requestID)))
            r.op r.processor r.args.length ++ es1.flatten ++ keyBytes ++ g ++ es2.flatten,
    { r with args := r.args.set (utf8 "gremlin") (Value.byteSlice g) },
    args1, args2, es1, es2, keyBytes, ?_, hsplit, hes1, hkb, hes2, rfl⟩
  rw [serializeMessage_eq, convertArgs_bytecode c r gs b hop hg, hg2]
  simp only []
  rw [buildMessage_eq, foldlM_buildMessageArg, hpre, hset, hall]
  simp only [List.flatten_append, List.flatten_cons, List.append_assoc]

/-- Witness of C5: a request of the operation `traversal`, the driver's
`bytecodeProcessor`, with the bytecode of `g.V()` under `gremlin`, encoded to
15 bytes that follow the encoding of the key in the output. -/
theorem bytecode_preencoding_witness :
    (bytecodeRequest.op = sampleConstants.bytecodeProcessor
      ∧ sampleGs.ser.write (Value.bytecode [(utf8 "V", [])]) []
          = .ok [0x15, 0x00, 0, 0, 0, 1, 0, 0, 0, 1, 0x56, 0, 0, 0, 0]
      ∧ (serializeMessage sampleConstants sampleGs bytecodeRequest).1
          = .ok (requestPreamble 32 sampleID (utf8 "traversal") [] 1
              ++ ([0x03, 0x00, 0, 0, 0, 7] ++ utf8 "gremlin")
              ++ [0x15, 0x00, 0, 0, 0, 1, 0, 0, 0, 1, 0x56, 0, 0, 0, 0]))
    ∧ ∃ (bytes : Bytes) (r1 : request) (args1 args2 : GoMap) (es1 es2 : List Bytes)
      (keyBytes : Bytes),
      serializeMessage sampleConstants sampleGs bytecodeRequest = (.ok bytes, r1)
      ∧ bytecodeRequest.args
          = args1 ++ (utf8 "gremlin", Value.bytecode [(utf8 "V", [])]) :: args2
      ∧ argEncodings sampleGs
          (requestPreamble 32
            (putUint64 (bigUint64 (bigRsh (uuidToBigInt bytecodeRequest.requestID) 64))
              ++ putUint64 (bigUint64 (uuidToBigInt bytecodeRequest.requestID)))
            bytecodeRequest.op bytecodeRequest.processor bytecodeRequest.args.length) args1
          = .ok es1
      ∧ sampleGs.ser.encode (Value.string (utf8 "gremlin"))
          (requestPreamble 32
            (putUint64 (bigUint64 (bigRsh (uuidToBigInt bytecodeRequest.requestID) 64))
              ++ putUint64 (bigUint64 (uuidToBigInt bytecodeRequest.requestID)))
            bytecodeRequest.op bytecodeRequest.processor bytecodeRequest.args.length
            ++ es1.flatten) = .ok keyBytes
      ∧ argEncodings sampleGs
          (requestPreamble 32
            (putUint64 (bigUint64 (bigRsh (uuidToBigInt bytecodeRequest.requestID) 64))
              ++ putUint64 (bigUint64 (uuidToBigInt bytecodeRequest.requestID)))
            bytecodeRequest.op bytecodeRequest.processor bytecodeRequest.args.length
            ++ es1.flatten ++ keyBytes
            ++ [0x15, 0x00, 0, 0, 0, 1, 0, 0, 0, 1, 0x56, 0, 0, 0, 0]) args2 = .ok es2
      ∧ bytes = requestPreamble 32
            (putUint64 (bigUint64 (bigRsh (uuidToBigInt bytecodeRequest.requestID) 64))
              ++ putUint64 (bigUint64 (uuidToBigInt bytecodeRequest.requestID)))
            bytecodeRequest.op bytecodeRequest.processor bytecodeRequest.args.length
            ++ es1.flatten ++ keyBytes
            ++ [0x15, 0x00, 0, 0, 0, 1, 0, 0, 0, 1, 0x56, 0, 0, 0, 0] ++ es2.flatten :=
  ⟨⟨by decide, by decide, by decide⟩,
   bytecode_preencoding sampleConstants sampleGs bytecodeRequest [(utf8 "V", [])]
     [0x15, 0x00, 0, 0, 0, 1, 0, 0, 0, 1, 0x56, 0, 0, 0, 0]
     (by decide) (by rfl) (by decide) (by unfold GoMap.wf; decide)
     (by
       intro kv hkv hne
       simp only [bytecodeRequest, List.mem_singleton] at hkv
       rw [hkv] at hne
       exact absurd rfl hne)
     (fun _ => ⟨_, rfl⟩)⟩

/-- Counterexample to C5 as stated: the operation is `traversal`, the driver's
`bytecodeProcessor`, and `args["gremlin"]` is a bytecode value that `write`
encodes without error, yet `serializeMessage` fails, because the value of a
second argument, of type `complex128`, has no encoder. -/
theorem bytecode_preencoding_counterexample :
    mixedRequest.op = utf8 "traversal"
    ∧ mixedRequest.op = sampleConstants.bytecodeProcessor
    ∧ mixedRequest.args.get (utf8 "gremlin") = Value.bytecode [(utf8 "V", [])]
    ∧ sampleGs.ser.write (Value.bytecode [(utf8 "V", [])]) []
        = .ok [0x15, 0x00, 0, 0, 0, 1, 0, 0, 0, 1, 0x56, 0, 0, 0, 0]
    ∧ (serializeMessage sampleConstants sampleGs mixedRequest).1
        = .error (Error.typeSerializer CodecError.unsupportedType) :=
  ⟨by decide, by decide, by rfl, by decide, by decide⟩

/-! ## Errors of serialization -/

theorem argEncoding_error (gs : graphBinarySerializer) (buffer : Bytes) (kv : GoString × Value)
    (err : Error) (h : argEncoding gs buffer kv = .error err) :
    ∃ ce, err = Error.typeSerializer ce := by
  obtain ⟨k, v⟩ := kv
  unfold argEncoding at h
  cases hk : gs.ser.encode (Value.string k) buffer with
  | error ce =>
    simp only [hk, Except.error.injEq] at h
    exact ⟨ce, h.symm⟩
  | ok ke =>
    simp only [hk] at h
    cases v with
    | byteSlice t => cases h
    | nil =>
      simp only at h
      cases hv : gs.ser.encode Value.nil (buffer ++ ke) with
      | error ce => simp only [hv, Except.error.injEq] at h; exact ⟨ce, h.symm⟩
      | ok ve => simp [hv] at h
    | string s =>
      simp only at h
      cases hv : gs.ser.encode (Value.string s) (buffer ++ ke) with
      | error ce => simp only [hv, Except.error.injEq] at h; exact ⟨ce, h.symm⟩
      | ok ve => simp [hv] at h
    | bytecode b =>
      simp only at h
      cases hv : gs.ser.encode (Value.bytecode b) (buffer ++ ke) with
      | error ce => simp only [hv, Except.error.injEq] at h; exact ⟨ce, h.symm⟩
      | ok ve => simp [hv] at h
    | other n t =>
      simp only at h
      cases hv : gs.ser.encode (Value.other n t) (buffer ++ ke) with
      | error ce => simp only [hv, Except.error.injEq] at h; exact ⟨ce, h.symm⟩
      | ok ve => simp [hv] at h

theorem argEncodings_error (gs : graphBinarySerializer) (args : GoMap) (buffer : Bytes)
    (err : Error) (h : argEncodings gs buffer args = .error err) :
    ∃ ce, err = Error.typeSerializer ce := by
  induction args generalizing buffer with
  | nil => cases h
  | cons kv rest ih =>
    simp only [argEncodings] at h
    cases he : argEncoding gs buffer kv with
    | error e1 =>
      simp only [he, Except.error.injEq] at h
      rw [← h]
      exact argEncoding_error gs buffer kv e1 he
    | ok e =>
      simp only [he] at h
      cases hr : argEncodings gs (buffer ++ e) rest with
      | error e1 =>
        simp only [hr, Except.error.injEq] at h
        subst h
        exact ih _ hr
      | ok es => simp [hr] at h

theorem buildMessage_error (gs : graphBinarySerializer) (id : UUID) (mimeLen : Nat)
    (op processor : GoString) (args : GoMap) (err : Error)
    (h : buildMessage gs id mimeLen op processor args = .error err) :
    ∃ ce, err = Error.typeSerializer ce := by
  rw [buildMessage_eq, foldlM_buildMessageArg] at h
  revert h
  cases he : argEncodings gs _ args with
  | error e1 =>
    intro h
    simp only [Except.error.injEq] at h
    rw [← h]
    exact argEncodings_error gs args _ e1 he
  | ok es => intro h; cases h

/-- C6. When the operation is bytecode evaluation and `args["gremlin"]` is not
a bytecode value, `serializeMessage` returns no bytes and fails with
`NoSerializerForArgument` carrying the name of the runtime type of the
argument, `string` for a plain string. When the operation is another one, or
`args["gremlin"]` is a bytecode value, it never fails with that error. -/
theorem no_serializer_for_argument (c : Constants) (gs : graphBinarySerializer) (r : request) :
    (r.op = c.bytecodeProcessor → (∀ b, r.args.get (utf8 "gremlin") ≠ Value.bytecode b) →
      serializeMessage c gs r
        = (.error (Error.convertArgsNoSerializer (r.args.get (utf8 "gremlin")).typeName), r))
    ∧ (∀ s, r.op = c.bytecodeProcessor → r.args.get (utf8 "gremlin") = Value.string s →
      serializeMessage c gs r = (.error (Error.convertArgsNoSerializer "string"), r))
    ∧ ((r.op ≠ c.bytecodeProcessor ∨ ∃ b, r.args.get (utf8 "gremlin") = Value.bytecode b) →
      ∀ n, (serializeMessage c gs r).1 ≠ .error (Error.convertArgsNoSerializer n)) := by
  have h1 : r.op = c.bytecodeProcessor → (∀ b, r.args.get (utf8 "gremlin") ≠ Value.bytecode b) →
      serializeMessage c gs r
        = (.error (Error.convertArgsNoSerializer (r.args.get (utf8 "gremlin")).typeName), r) := by
    intro hop hg
    rw [serializeMessage_eq, convertArgs_not_bytecode c r gs hop hg]
  refine ⟨h1, ?_, ?_⟩
  · intro s hop hs
    rw [h1 hop (by rw [hs]; intro b e; cases e), hs]
    rfl
  · intro hcase n hn
    rw [serializeMessage_eq] at hn
    rcases hcase with hop | ⟨b, hb⟩
    · rw [convertArgs_other_op c r gs hop] at hn
      simp only at hn
      obtain ⟨ce, hce⟩ := buildMessage_error gs _ _ _ _ _ _ hn
      cases hce
    · by_cases hop : r.op = c.bytecodeProcessor
      · rw [convertArgs_bytecode c r gs b hop hb] at hn
        revert hn
        cases gs.ser.encode (Value.bytecode b) [] with
        | error err => intro hn; simp at hn
        | ok g =>
          intro hn
          simp only at hn
          obtain ⟨ce, hce⟩ := buildMessage_error gs _ _ _ _ _ _ hn
          cases hce
      · rw [convertArgs_other_op c r gs hop] at hn
        simp only at hn
        obtain ⟨ce, hce⟩ := buildMessage_error gs _ _ _ _ _ _ hn
        cases hce

/-- Witness of C6: a plain string under `gremlin` in a request of the operation
`traversal`, the driver's `bytecodeProcessor`, and the same script in a request
of the operation `eval`. -/
theorem no_serializer_for_argument_witness :
    (stringRequest.op = sampleConstants.bytecodeProcessor
      ∧ stringRequest.args.get (utf8 "gremlin") = Value.string (utf8 "g.V()")
      ∧ serializeMessage sampleConstants sampleGs stringRequest
          = (.error (Error.convertArgsNoSerializer "string"), stringRequest))
    ∧ (evalRequest.op ≠ sampleConstants.bytecodeProcessor
      ∧ ∀ n, (serializeMessage sampleConstants sampleGs evalRequest).1
          ≠ .error (Error.convertArgsNoSerializer n)) :=
  ⟨⟨by decide, by rfl,
    (no_serializer_for_argument sampleConstants sampleGs stringRequest).2.1 (utf8 "g.V()")
      (by decide) (by rfl)⟩,
   ⟨by decide,
    (no_serializer_for_argument sampleConstants sampleGs evalRequest).2.2
      (Or.inl (by decide))⟩⟩

/-! ## The request after serialization -/

theorem GoMap.get_set_ne (m : GoMap) (k k1 : GoString) (v : Value) (h : k1 ≠ k) :
    (m.set k v).get k1 = m.get k1 := by
  induction m with
  | nil => simp [GoMap.set, GoMap.get, Ne.symm h]
  | cons kv rest ih =>
    obtain ⟨k0, v0⟩ := kv
    by_cases hk : k0 = k
    · have hk1 : ¬ k0 = k1 := by rw [hk]; exact Ne.symm h
      simp [GoMap.set, GoMap.get, hk, hk1, Ne.symm h]
    · by_cases hk1 : k0 = k1
      · subst hk1
        simp [GoMap.set, GoMap.get, hk]
      · simp [GoMap.set, GoMap.get, hk, hk1, ih]

theorem serializeMessage_request (c : Constants) (gs : graphBinarySerializer) (r : request) :
    (serializeMessage c gs r).2 = (convertArgs c r gs).2 := by
  rw [serializeMessage_eq]
  cases (convertArgs c r gs).1 <;> rfl

/-- C7 (amended). After `serializeMessage` returns, with bytes or with an
error, the identifier, the operation, the processor and every argument other
than `gremlin` of the request are what they were before the call. The whole
request is unchanged when the operation is not bytecode evaluation, when
`args["gremlin"]` is not a bytecode value, or when `write` fails on it;
otherwise the value under `gremlin` has been replaced by its encoded bytes. -/
theorem request_after_serializeMessage (c : Constants) (gs : graphBinarySerializer)
    (r : request) :
    (serializeMessage c gs r).2.requestID = r.requestID
    ∧ (serializeMessage c gs r).2.op = r.op
    ∧ (serializeMessage c gs r).2.processor = r.processor
    ∧ (∀ k, k ≠ utf8 "gremlin" → (serializeMessage c gs r).2.args.get k = r.args.get k)
    ∧ ((r.op ≠ c.bytecodeProcessor ∨ (∀ b, r.args.get (utf8 "gremlin") ≠ Value.bytecode b)
          ∨ ∃ b err, r.args.get (utf8 "gremlin") = Value.bytecode b
              ∧ gs.ser.write (Value.bytecode b) [] = .error err) →
        (serializeMessage c gs r).2 = r)
    ∧ (∀ b g, r.op = c.bytecodeProcessor → r.args.get (utf8 "gremlin") = Value.bytecode b →
        gs.ser.write (Value.bytecode b) [] = .ok g →
        (serializeMessage c gs r).2.args = r.args.set (utf8 "gremlin") (Value.byteSlice g)) := by
  rw [serializeMessage_request]
  have hf := convertArgs_frame c r gs
  have hwrite : ∀ b, gs.ser.write (Value.bytecode b) []
      = match gs.ser.encode (Value.bytecode b) [] with
        | .error err => .error (Error.typeSerializer err)
        | .ok g => .ok g := by
    intro b
    unfold graphBinaryTypeSerializer.write
    cases gs.ser.encode (Value.bytecode b) [] <;> simp
  refine ⟨hf.1, hf.2.1, hf.2.2.1, ?_, ?_, ?_⟩
  · intro k hk
    by_cases hop : r.op = c.bytecodeProcessor
    · by_cases hg : ∃ b, r.args.get (utf8 "gremlin") = Value.bytecode b
      · obtain ⟨b, hb⟩ := hg
        rw [convertArgs_bytecode c r gs b hop hb]
        cases gs.ser.encode (Value.bytecode b) [] with
        | error err => rfl
        | ok g => exact GoMap.get_set_ne _ _ _ _ hk
      · rw [convertArgs_not_bytecode c r gs hop (fun b hb => hg ⟨b, hb⟩)]
    · rw [convertArgs_other_op c r gs hop]
  · intro hcase
    rcases hcase with hop | hg | ⟨b, err, hb, herr⟩
    · rw [convertArgs_other_op c r gs hop]
    · by_cases hop : r.op = c.bytecodeProcessor
      · rw [convertArgs_not_bytecode c r gs hop hg]
      · rw [convertArgs_other_op c r gs hop]
    · by_cases hop : r.op = c.bytecodeProcessor
      · rw [convertArgs_bytecode c r gs b hop hb]
        rw [hwrite] at herr
        revert herr
        cases gs.ser.encode (Value.bytecode b) [] with
        | error e1 => intro _; rfl
        | ok g => intro herr; cases herr
      · rw [convertArgs_other_op c r gs hop]
  · intro b g hop hb hg
    rw [convertArgs_bytecode c r gs b hop hb]
    rw [hwrite] at hg
    revert hg
    cases gs.ser.encode (Value.bytecode b) [] with
    | error e1 => intro hg; cases hg
    | ok g1 =>
      intro hg
      simp only [Except.ok.injEq] at hg
      rw [hg]

/-- Witness of C7: a request of the operation `eval` is left unchanged, and in
a request of the operation `traversal`, the driver's `bytecodeProcessor`, the
bytecode is replaced by its 15 encoded bytes. -/
theorem request_after_serializeMessage_witness :
    (evalRequest.op ≠ sampleConstants.bytecodeProcessor
      ∧ (serializeMessage sampleConstants sampleGs evalRequest).2 = evalRequest)
    ∧ (bytecodeRequest.op = sampleConstants.bytecodeProcessor
      ∧ bytecodeRequest.args.get (utf8 "gremlin") = Value.bytecode [(utf8 "V", [])]
      ∧ sampleGs.ser.write (Value.bytecode [(utf8 "V", [])]) []
          = .ok [0x15, 0x00, 0, 0, 0, 1, 0, 0, 0, 1, 0x56, 0, 0, 0, 0]
      ∧ (serializeMessage sampleConstants sampleGs bytecodeRequest).2.args
          = bytecodeRequest.args.set (utf8 "gremlin")
              (Value.byteSlice [0x15, 0x00, 0, 0, 0, 1, 0, 0, 0, 1, 0x56, 0, 0, 0, 0])) :=
  ⟨⟨by decide,
    (request_after_serializeMessage sampleConstants sampleGs evalRequest).2.2.2.2.1
      (Or.inl (by decide))⟩,
   ⟨by decide, by rfl, by decide,
    (request_after_serializeMessage sampleConstants sampleGs bytecodeRequest).2.2.2.2.2
      [(utf8 "V", [])] [0x15, 0x00, 0, 0, 0, 1, 0, 0, 0, 1, 0x56, 0, 0, 0, 0]
      (by decide) (by rfl) (by decide)⟩⟩

/-- Counterexample to C7 as stated: `serializeMessage` succeeds on a request of
the operation `traversal`, the driver's `bytecodeProcessor`, and the value
stored under `gremlin`, a bytecode before the call, is a raw byte sequence
after it. -/
theorem request_immutable_counterexample :
    bytecodeRequest.op = utf8 "traversal"
    ∧ bytecodeRequest.op = sampleConstants.bytecodeProcessor
    ∧ (serializeMessage sampleConstants sampleGs bytecodeRequest).1
        = .ok (requestPreamble 32 sampleID (utf8 "traversal") [] 1
              ++ ([0x03, 0x00, 0, 0, 0, 7] ++ utf8 "gremlin")
              ++ [0x15, 0x00, 0, 0, 0, 1, 0, 0, 0, 1, 0x56, 0, 0, 0, 0])
    ∧ bytecodeRequest.args.get (utf8 "gremlin") = Value.bytecode [(utf8 "V", [])]
    ∧ (serializeMessage sampleConstants sampleGs bytecodeRequest).2.args.get (utf8 "gremlin")
        = Value.byteSlice [0x15, 0x00, 0, 0, 0, 1, 0, 0, 0, 1, 0x56, 0, 0, 0, 0]
    ∧ (serializeMessage sampleConstants sampleGs bytecodeRequest).2 ≠ bytecodeRequest := by
  have h1 : bytecodeRequest.args.get (utf8 "gremlin") = Value.bytecode [(utf8 "V", [])] := by
    rfl
  have h2 : (serializeMessage sampleConstants sampleGs bytecodeRequest).2.args.get
      (utf8 "gremlin")
        = Value.byteSlice [0x15, 0x00, 0, 0, 0, 1, 0, 0, 0, 1, 0x56, 0, 0, 0, 0] := by
    rfl
  refine ⟨by decide, by decide, by decide, h1, h2, ?_⟩
  intro e
  rw [e, h1] at h2
  cases h2

/-- C8. For every request whose operation is not the bytecode-evaluation
operation, `convertArgs` succeeds, returns the argument map of the request
unchanged, whatever it holds under `gremlin`, and leaves the request as it
was. -/
theorem convertArgs_passes_through (c : Constants) (r : request) (gs : graphBinarySerializer)
    (hop : r.op ≠ c.bytecodeProcessor) : convertArgs c r gs = (.ok r.args, r) :=
  convertArgs_other_op c r gs hop

/-- Witness of C8: the request of the operation `eval`. -/
theorem convertArgs_passes_through_witness :
    evalRequest.op ≠ sampleConstants.bytecodeProcessor
    ∧ convertArgs sampleConstants evalRequest sampleGs = (.ok evalRequest.args, evalRequest) :=
  ⟨by decide, convertArgs_passes_through sampleConstants evalRequest sampleGs (by decide)⟩

/-! ## The bytes of one argument -/

theorem argEncoding_inv (gs : graphBinarySerializer) (buffer : Bytes) (k : GoString) (v : Value)
    (e : Bytes) (h : argEncoding gs buffer (k, v) = .ok e) :
    ∃ keyBytes valueBytes, e = keyBytes ++ valueBytes
      ∧ gs.ser.encode (Value.string k) buffer = .ok keyBytes
      ∧ (∀ r, v = Value.byteSlice r → valueBytes = r)
      ∧ ((∀ r, v ≠ Value.byteSlice r) →
          gs.ser.encode v (buffer ++ keyBytes) = .ok valueBytes) := by
  unfold argEncoding at h
  cases hk : gs.ser.encode (Value.string k) buffer with
  | error ce => simp [hk] at h
  | ok ke =>
    simp only [hk] at h
    cases v with
    | byteSlice t =>
      simp only [Except.ok.injEq] at h
      exact ⟨ke, t, h.symm, rfl, (fun r hr => by cases hr; rfl), fun hne => absurd rfl (hne t)⟩
    | nil =>
      simp only at h
      cases hv : gs.ser.encode Value.nil (buffer ++ ke) with
      | error ce => simp [hv] at h
      | ok ve =>
        simp only [hv, Except.ok.injEq] at h
        exact ⟨ke, ve, h.symm, rfl, (fun r hr => by cases hr), fun _ => hv⟩
    | string s =>
      simp only at h
      cases hv : gs.ser.encode (Value.string s) (buffer ++ ke) with
      | error ce => simp [hv] at h
      | ok ve =>
        simp only [hv, Except.ok.injEq] at h
        exact ⟨ke, ve, h.symm, rfl, (fun r hr => by cases hr), fun _ => hv⟩
    | bytecode b =>
      simp only at h
      cases hv : gs.ser.encode (Value.bytecode b) (buffer ++ ke) with
      | error ce => simp [hv] at h
      | ok ve =>
        simp only [hv, Except.ok.injEq] at h
        exact ⟨ke, ve, h.symm, rfl, (fun r hr => by cases hr), fun _ => hv⟩
    | other n t =>
      simp only at h
      cases hv : gs.ser.encode (Value.other n t) (buffer ++ ke) with
      | error ce => simp [hv] at h
      | ok ve =>
        simp only [hv, Except.ok.injEq] at h
        exact ⟨ke, ve, h.symm, rfl, (fun r hr => by cases hr), fun _ => hv⟩

theorem argEncodings_split (gs : graphBinarySerializer) (a1 a2 : GoMap) (kv : GoString × Value)
    (buffer : Bytes) (es : List Bytes) (h : argEncodings gs buffer (a1 ++ kv :: a2) = .ok es) :
    ∃ es1 e es2, es = es1 ++ e :: es2
      ∧ argEncodings gs buffer a1 = .ok es1
      ∧ argEncoding gs (buffer ++ es1.flatten) kv = .ok e
      ∧ argEncodings gs (buffer ++ es1.flatten ++ e) a2 = .ok es2 := by
  induction a1 generalizing buffer es with
  | nil =>
    simp only [List.nil_append, argEncodings] at h
    cases he : argEncoding gs buffer kv with
    | error err => simp [he] at h
    | ok e =>
      simp only [he] at h
      cases hr : argEncodings gs (buffer ++ e) a2 with
      | error err => simp [hr] at h
      | ok es2 =>
        simp only [hr, Except.ok.injEq] at h
        exact ⟨[], e, es2, by simp [← h], rfl, by simpa using he, by simpa using hr⟩
  | cons kv1 rest ih =>
    have h1 : argEncodings gs buffer (kv1 :: (rest ++ kv :: a2)) = .ok es := h
    simp only [argEncodings] at h1
    cases he : argEncoding gs buffer kv1 with
    | error err => simp [he] at h1
    | ok e1 =>
      simp only [he] at h1
      cases hr : argEncodings gs (buffer ++ e1) (rest ++ kv :: a2) with
      | error err => simp [hr] at h1
      | ok es0 =>
        simp only [hr, Except.ok.injEq] at h1
        obtain ⟨es1, e, es2, hes, ha, hb, hc⟩ := ih (buffer ++ e1) es0 hr
        refine ⟨e1 :: es1, e, es2, by rw [← h1, hes]; rfl, ?_, ?_, ?_⟩
        · simp only [argEncodings, he, ha]
        · simpa using hb
        · simpa using hc

/-- C9. In `buildMessage`, the bytes written for an argument are the encoding
of its key as a string value followed, when the value is a raw byte sequence
`r`, by exactly `r`, and otherwise by the encoding of the value. The message is
what was written before the argument, these bytes, and the encodings of the
arguments after it. -/
theorem buildMessage_argument (gs : graphBinarySerializer) (id : UUID) (mimeLen : Nat)
    (op processor : GoString) (args1 args2 : GoMap) (k : GoString) (v : Value) (msg : Bytes)
    (h : buildMessage gs id mimeLen op processor (args1 ++ (k, v) :: args2) = .ok msg) :
    ∃ (es1 es2 : List Bytes) (before keyBytes valueBytes : Bytes),
      msg = before ++ keyBytes ++ valueBytes ++ es2.flatten
      ∧ before = requestPreamble mimeLen
          (putUint64 (bigUint64 (bigRsh (uuidToBigInt id) 64))
            ++ putUint64 (bigUint64 (uuidToBigInt id)))
          op processor (args1 ++ (k, v) :: args2).length ++ es1.flatten
      ∧ es1.length = args1.length ∧ es2.length = args2.length
      ∧ gs.ser.encode (Value.string k) before = .ok keyBytes
      ∧ (∀ r, v = Value.byteSlice r → valueBytes = r)
      ∧ ((∀ r, v ≠ Value.byteSlice r) →
          gs.ser.encode v (before ++ keyBytes) = .ok valueBytes) := by
  rw [buildMessage_eq, foldlM_buildMessageArg, putUint32_uint32, putUint32_uint32,
    putUint32_uint32] at h
  have hpre : ([mimeLen] ++ graphBinaryMimeType ++ [versionByte]
            ++ (putUint64 (bigUint64 (bigRsh (uuidToBigInt id) 64))
                ++ putUint64 (bigUint64 (uuidToBigInt id)))
            ++ (putUint32 op.length ++ op ++ putUint32 processor.length
                ++ processor ++ putUint32 (args1 ++ (k, v) :: args2).length))
      = requestPreamble mimeLen
          (putUint64 (bigUint64 (bigRsh (uuidToBigInt id) 64))
            ++ putUint64 (bigUint64 (uuidToBigInt id)))
          op processor (args1 ++ (k, v) :: args2).length := by
    simp only [requestPreamble, versionByte, List.append_assoc]
  rw [hpre] at h
  revert h
  cases he : argEncodings gs _ (args1 ++ (k, v) :: args2) with
  | error err => intro h; cases h
  | ok es =>
    intro h
    simp only [Except.ok.injEq] at h
    obtain ⟨es1, e, es2, hes, h1, h2, h3⟩ := argEncodings_split gs args1 args2 (k, v) _ es he
    obtain ⟨keyBytes, valueBytes, hkv, hkey, hraw, hval⟩ := argEncoding_inv gs _ k v e h2
    refine ⟨es1, es2, _, keyBytes, valueBytes, ?_, rfl, argEncodings_length gs _ _ _ h1,
      argEncodings_length gs _ _ _ h3, hkey, hraw, hval⟩
    rw [← h, hes, hkv]
    simp only [List.flatten_append, List.flatten_cons, List.append_assoc]

/-- Witness of C9: a string value, written by the type serializer after its
key. -/
theorem buildMessage_argument_witness :
    buildMessage sampleGs sampleID 32 (utf8 "eval") []
        ([] ++ (utf8 "gremlin", Value.string (utf8 "g.V()")) :: [])
      = .ok (requestPreamble 32 sampleID (utf8 "eval") [] 1
          ++ ([0x03, 0x00, 0, 0, 0, 7] ++ utf8 "gremlin")
          ++ ([0x03, 0x00, 0, 0, 0, 5] ++ utf8 "g.V()"))
    ∧ ∃ (es1 es2 : List Bytes) (before keyBytes valueBytes : Bytes),
      requestPreamble 32 sampleID (utf8 "eval") [] 1
          ++ ([0x03, 0x00, 0, 0, 0, 7] ++ utf8 "gremlin")
          ++ ([0x03, 0x00, 0, 0, 0, 5] ++ utf8 "g.V()")
        = before ++ keyBytes ++ valueBytes ++ es2.flatten
      ∧ before = requestPreamble 32
          (putUint64 (bigUint64 (bigRsh (uuidToBigInt sampleID) 64))
            ++ putUint64 (bigUint64 (uuidToBigInt sampleID)))
          (utf8 "eval") []
          (([] : GoMap) ++ (utf8 "gremlin", Value.string (utf8 "g.V()")) :: []).length
          ++ es1.flatten
      ∧ es1.length = ([] : GoMap).length ∧ es2.length = ([] : GoMap).length
      ∧ sampleGs.ser.encode (Value.string (utf8 "gremlin")) before = .ok keyBytes
      ∧ (∀ r, Value.string (utf8 "g.V()") = Value.byteSlice r → valueBytes = r)
      ∧ ((∀ r, Value.string (utf8 "g.V()") ≠ Value.byteSlice r) →
          sampleGs.ser.encode (Value.string (utf8 "g.V()")) (before ++ keyBytes)
            = .ok valueBytes) :=
  ⟨by decide,
   buildMessage_argument sampleGs sampleID 32 (utf8 "eval") [] [] []
     (utf8 "gremlin") (Value.string (utf8 "g.V()")) _ (by decide)⟩

/-! ## Reading a response -/

theorem readUint32_putUint32 (n : Nat) (rest : Bytes) (h : n < 2 ^ 32) :
    readUint32 (putUint32 n ++ rest) = .ok (n, rest) := by
  simp only [putUint32, List.cons_append, List.nil_append, readUint32, beUint32, Except.ok.injEq,
    Prod.mk.injEq, and_true]
  omega

theorem readString_ok (s : GoString) (rest : Bytes) (h : s.length < 2 ^ 32) :
    readString (putUint32 s.length ++ (s ++ rest)) = .ok (s, rest) := by
  unfold readString
  rw [readUint32_putUint32 _ _ h]
  simp only [readFull_append]

/-- What `deserializeMessage` does once the head of the response is read. -/
theorem deserializeMessage_head (c : Constants) (gs : graphBinarySerializer)
    (version flag : Nat) (id : UUID) (s0 s1 s2 s3 nullFlag : Nat) (message : GoString)
    (tail : Bytes) (hid : id.length = 16) (hm : message.length < 2 ^ 32) :
    deserializeMessage c gs (responseHead version flag id s0 s1 s2 s3 nullFlag message ++ tail)
      = match readMap c tail gs with
        | .error err => (response.zero, some err)
        | .ok (statusAttributes, buffer) =>
          match readMap c buffer gs with
          | .error err => (response.zero, some err)
          | .ok (metaAttributes, buffer) =>
            match gs.ser.read buffer with
            | .error err => (response.zero, some err)
            | .ok (data, _) =>
              ({ responseID := id
                 responseStatus :=
                   { code := uint16 (beUint32 s0 s1 s2 s3 &&& 0xFF)
                     message := if nullFlag = 0 then message else []
                     attributes := statusAttributes }
                 responseResult := { meta := metaAttributes, data := data } }, none) := by
  have e1 : responseHead version flag id s0 s1 s2 s3 nullFlag message ++ tail
      = version :: flag :: (id ++ s0 :: s1 :: s2 :: s3 :: (messageBlock nullFlag message ++ tail)) := by
    simp [responseHead]
  rw [e1]
  unfold deserializeMessage
  simp only [readByte, readUUID_ok flag id _ hid, readUint32]
  by_cases h0 : nullFlag = 0
  · subst h0
    have e2 : messageBlock 0 message ++ tail = 0 :: (putUint32 message.length ++ (message ++ tail)) := by
      simp [messageBlock]
    rw [e2]
    simp only [readString_ok message tail hm, if_true]
  · have e2 : messageBlock nullFlag message ++ tail = nullFlag :: tail := by
      simp [messageBlock, h0]
    rw [e2]
    simp only [if_neg h0]

theorem readMapLoop_add (c : Constants) (gs : graphBinarySerializer) (k j : Nat) :
    ∀ (buffer : Bytes) (m : GoMap),
      readMapLoop c gs (k + j) buffer m
        = match readMapLoop c gs k buffer m with
          | .error err => .error err
          | .ok (m1, b1) => readMapLoop c gs j b1 m1 := by
  induction k with
  | zero => intro buffer m; simp [readMapLoop]
  | succ k ih =>
    intro buffer m
    rw [Nat.succ_add]
    simp only [readMapLoop]
    cases h1 : readByte buffer with
    | error err => rfl
    | ok r1 =>
      obtain ⟨keyType, b1⟩ := r1
      simp only
      by_cases ht : keyType = c.stringType
      · simp only [ht, ne_eq, not_true_eq_false, if_false]
        cases h2 : readByte b1 with
        | error err => rfl
        | ok r2 =>
          obtain ⟨nullable, b2⟩ := r2
          simp only
          by_cases hn : nullable = 0
          · simp only [hn, ne_eq, not_true_eq_false, if_false]
            cases h3 : readString b2 with
            | error err => rfl
            | ok r3 =>
              obtain ⟨key, b3⟩ := r3
              simp only
              cases h4 : gs.ser.read b3 with
              | error err => rfl
              | ok r4 =>
                obtain ⟨v, b4⟩ := r4
                simp only
                exact ih b4 _
          · simp only [ne_eq, hn, not_false_eq_true, if_true]
      · simp only [ne_eq, ht, not_false_eq_true, if_true]

theorem readMapLoop_nonStringKey (c : Constants) (gs : graphBinarySerializer) (j tag : Nat)
    (rest : Bytes) (m : GoMap) (h : tag ≠ c.stringType) :
    readMapLoop c gs (j + 1) (tag :: rest) m = .error (Error.readMapNonStringKey tag) := by
  simp only [readMapLoop, readByte, if_pos h]

theorem readMap_nonStringKey (c : Constants) (gs : graphBinarySerializer)
    (n0 n1 n2 n3 k : Nat) (entries : Bytes) (m : GoMap) (tag : Nat) (rest : Bytes)
    (hk : k < beUint32 n0 n1 n2 n3)
    (hentries : ∀ rest, readMapLoop c gs k (entries ++ rest) [] = .ok (m, rest))
    (htag : tag ≠ c.stringType) :
    readMap c ([n0, n1, n2, n3] ++ entries ++ tag :: rest) gs
      = .error (Error.readMapNonStringKey tag) := by
  have e : [n0, n1, n2, n3] ++ entries ++ tag :: rest
      = n0 :: n1 :: n2 :: n3 :: (entries ++ tag :: rest) := by simp
  obtain ⟨j, hj⟩ : ∃ j, beUint32 n0 n1 n2 n3 = k + (j + 1) := ⟨beUint32 n0 n1 n2 n3 - k - 1, by omega⟩
  rw [e]
  unfold readMap
  simp only [readUint32]
  rw [hj, readMapLoop_add, hentries]
  exact readMapLoop_nonStringKey c gs j tag rest m htag

/-- C10. Map key constraint: in a response that is well formed up to the
status-attributes map, whose map declares more entries than the `k` valid ones
it starts with, and in which the key tag of the next entry is not the string
tag, `deserializeMessage` fails with the non-string-map-key error carrying
that tag, whatever bytes follow the tag. The same holds in the meta-attributes
map, after any status-attributes map that is read without error. -/
theorem map_key_constraint (c : Constants) (gs : graphBinarySerializer)
    (version flag : Nat) (id : UUID) (s0 s1 s2 s3 nullFlag : Nat) (message : GoString)
    (n0 n1 n2 n3 k : Nat) (entries : Bytes) (m : GoMap) (tag : Nat)
    (hid : id.length = 16) (hm : message.length < 2 ^ 32)
    (hk : k < beUint32 n0 n1 n2 n3)
    (hentries : ∀ rest, readMapLoop c gs k (entries ++ rest) [] = .ok (m, rest))
    (htag : tag ≠ c.stringType) :
    (∀ rest, deserializeMessage c gs
        (responseHead version flag id s0 s1 s2 s3 nullFlag message
          ++ ([n0, n1, n2, n3] ++ entries ++ tag :: rest))
      = (response.zero, some (Error.readMapNonStringKey tag)))
    ∧ (∀ (statusBytes : Bytes) (statusAttributes : GoMap),
        (∀ rest, readMap c (statusBytes ++ rest) gs = .ok (statusAttributes, rest)) →
        ∀ rest, deserializeMessage c gs
            (responseHead version flag id s0 s1 s2 s3 nullFlag message
              ++ (statusBytes ++ ([n0, n1, n2, n3] ++ entries ++ tag :: rest)))
          = (response.zero, some (Error.readMapNonStringKey tag))) := by
  constructor
  · intro rest
    rw [deserializeMessage_head c gs version flag id s0 s1 s2 s3 nullFlag message _ hid hm,
      readMap_nonStringKey c gs n0 n1 n2 n3 k entries m tag rest hk hentries htag]
  · intro statusBytes statusAttributes hstatus rest
    rw [deserializeMessage_head c gs version flag id s0 s1 s2 s3 nullFlag message _ hid hm,
      hstatus]
    simp only []
    rw [readMap_nonStringKey c gs n0 n1 n2 n3 k entries m tag rest hk hentries htag]

/-- Witness of C10: a map that declares two entries, the first valid
(`a` ↦ `b`), the second with the key tag 0x01. -/
theorem map_key_constraint_witness :
    (∀ rest, deserializeMessage sampleConstants sampleGs
        (responseHead 0x81 0 sampleID 0 0 0 200 1 []
          ++ ([0, 0, 0, 2] ++ [0x03, 0, 0, 0, 0, 1, 0x61, 0x03, 0, 0, 0, 0, 1, 0x62]
              ++ 0x01 :: rest))
      = (response.zero, some (Error.readMapNonStringKey 0x01)))
    ∧ (∀ rest, deserializeMessage sampleConstants sampleGs
        (responseHead 0x81 0 sampleID 0 0 0 200 1 []
          ++ ([0, 0, 0, 0] ++ ([0, 0, 0, 2]
              ++ [0x03, 0, 0, 0, 0, 1, 0x61, 0x03, 0, 0, 0, 0, 1, 0x62] ++ 0x01 :: rest)))
      = (response.zero, some (Error.readMapNonStringKey 0x01))) :=
  have hentries : ∀ rest, readMapLoop sampleConstants sampleGs 1
      ([0x03, 0, 0, 0, 0, 1, 0x61, 0x03, 0, 0, 0, 0, 1, 0x62] ++ rest) []
        = .ok ([([0x61], Value.string [0x62])], rest) := by
    intro rest
    simp [readMapLoop, readByte, readString, readUint32, readFull, beUint32, sampleConstants,
      sampleGs, sampleSer, graphBinaryTypeSerializer.read, GoMap.set]
  ⟨(map_key_constraint sampleConstants sampleGs 0x81 0 sampleID 0 0 0 200 1 [] 0 0 0 2 1
      [0x03, 0, 0, 0, 0, 1, 0x61, 0x03, 0, 0, 0, 0, 1, 0x62]
      [([0x61], Value.string [0x62])] 0x01 (by decide) (by decide) (by decide) hentries
      (by decide)).1,
   (map_key_constraint sampleConstants sampleGs 0x81 0 sampleID 0 0 0 200 1 [] 0 0 0 2 1
      [0x03, 0, 0, 0, 0, 1, 0x61, 0x03, 0, 0, 0, 0, 1, 0x62]
      [([0x61], Value.string [0x62])] 0x01 (by decide) (by decide) (by decide) hentries
      (by decide)).2 [0, 0, 0, 0] [] (fun rest => by simp [readMap, readUint32, readMapLoop, beUint32])⟩

/-! ## Null map keys -/

theorem readMapLoop_nullKey (c : Constants) (gs : graphBinarySerializer) (j nullable : Nat)
    (rest : Bytes) (m : GoMap) (h : nullable ≠ 0) :
    readMapLoop c gs (j + 1) (c.stringType :: nullable :: rest) m
      = .error Error.readMapNullKey := by
  simp only [readMapLoop, readByte, ne_eq, not_true_eq_false, if_false, if_pos h]

theorem readMap_nullKey (c : Constants) (gs : graphBinarySerializer)
    (n0 n1 n2 n3 k : Nat) (entries : Bytes) (m : GoMap) (nullable : Nat) (rest : Bytes)
    (hk : k < beUint32 n0 n1 n2 n3)
    (hentries : ∀ rest, readMapLoop c gs k (entries ++ rest) [] = .ok (m, rest))
    (hnull : nullable ≠ 0) :
    readMap c ([n0, n1, n2, n3] ++ entries ++ c.stringType :: nullable :: rest) gs
      = .error Error.readMapNullKey := by
  have e : [n0, n1, n2, n3] ++ entries ++ c.stringType :: nullable :: rest
      = n0 :: n1 :: n2 :: n3 :: (entries ++ c.stringType :: nullable :: rest) := by simp
  obtain ⟨j, hj⟩ : ∃ j, beUint32 n0 n1 n2 n3 = k + (j + 1) :=
    ⟨beUint32 n0 n1 n2 n3 - k - 1, by omega⟩
  rw [e]
  unfold readMap
  simp only [readUint32]
  rw [hj, readMapLoop_add, hentries]
  exact readMapLoop_nullKey c gs j nullable rest m hnull

theorem sampleEntry_valid : ∀ rest, readMapLoop sampleConstants sampleGs 1
    (sampleEntry ++ rest) [] = .ok ([([0x61], Value.string [0x62])], rest) := by
  intro rest
  simp [sampleEntry, readMapLoop, readByte, readString, readUint32, readFull, beUint32,
    sampleConstants, sampleGs, sampleSer, graphBinaryTypeSerializer.read, GoMap.set]

theorem readMap_empty (c : Constants) (gs : graphBinarySerializer) :
    ∀ rest, readMap c ([0, 0, 0, 0] ++ rest) gs = .ok ([], rest) := by
  intro rest
  simp [readMap, readUint32, readMapLoop, beUint32]

/-- C11. Null map key: when, after the `k` valid entries a map starts with and
fewer than it declares, the next key has the string tag followed by a nonzero
nullability flag, `readMap` fails with the null-map-key error, whatever
follows, and returns no map; `deserializeMessage` fails with that error when
this happens in the status-attributes map, or in the meta-attributes map after
a status-attributes map read without error. -/
theorem null_map_key (c : Constants) (gs : graphBinarySerializer)
    (n0 n1 n2 n3 k : Nat) (entries : Bytes) (m : GoMap) (nullable : Nat)
    (hk : k < beUint32 n0 n1 n2 n3)
    (hentries : ∀ rest, readMapLoop c gs k (entries ++ rest) [] = .ok (m, rest))
    (hnull : nullable ≠ 0) :
    (∀ rest, readMap c ([n0, n1, n2, n3] ++ entries ++ c.stringType :: nullable :: rest) gs
      = .error Error.readMapNullKey)
    ∧ (∀ (version flag : Nat) (id : UUID) (s0 s1 s2 s3 nullFlag : Nat) (message : GoString),
        id.length = 16 → message.length < 2 ^ 32 →
        (∀ rest, deserializeMessage c gs
            (responseHead version flag id s0 s1 s2 s3 nullFlag message
              ++ ([n0, n1, n2, n3] ++ entries ++ c.stringType :: nullable :: rest))
          = (response.zero, some Error.readMapNullKey))
        ∧ (∀ (statusBytes : Bytes) (statusAttributes : GoMap),
            (∀ rest, readMap c (statusBytes ++ rest) gs = .ok (statusAttributes, rest)) →
            ∀ rest, deserializeMessage c gs
                (responseHead version flag id s0 s1 s2 s3 nullFlag message
                  ++ (statusBytes
                    ++ ([n0, n1, n2, n3] ++ entries ++ c.stringType :: nullable :: rest)))
              = (response.zero, some Error.readMapNullKey))) := by
  refine ⟨fun rest => readMap_nullKey c gs n0 n1 n2 n3 k entries m nullable rest hk hentries hnull,
    ?_⟩
  intro version flag id s0 s1 s2 s3 nullFlag message hid hm
  constructor
  · intro rest
    rw [deserializeMessage_head c gs version flag id s0 s1 s2 s3 nullFlag message _ hid hm,
      readMap_nullKey c gs n0 n1 n2 n3 k entries m nullable rest hk hentries hnull]
  · intro statusBytes statusAttributes hstatus rest
    rw [deserializeMessage_head c gs version flag id s0 s1 s2 s3 nullFlag message _ hid hm,
      hstatus]
    simp only []
    rw [readMap_nullKey c gs n0 n1 n2 n3 k entries m nullable rest hk hentries hnull]

/-- Witness of C11: a map that declares two entries, the first valid, the
second with a string key flagged null. -/
theorem null_map_key_witness :
    (∀ rest, readMap sampleConstants ([0, 0, 0, 2] ++ sampleEntry ++ 0x03 :: 0x01 :: rest)
        sampleGs = .error Error.readMapNullKey)
    ∧ (∀ rest, deserializeMessage sampleConstants sampleGs
        (responseHead 0x81 0 sampleID 0 0 0 200 1 []
          ++ ([0, 0, 0, 2] ++ sampleEntry ++ 0x03 :: 0x01 :: rest))
      = (response.zero, some Error.readMapNullKey))
    ∧ (∀ rest, deserializeMessage sampleConstants sampleGs
        (responseHead 0x81 0 sampleID 0 0 0 200 1 []
          ++ ([0, 0, 0, 0] ++ ([0, 0, 0, 2] ++ sampleEntry ++ 0x03 :: 0x01 :: rest)))
      = (response.zero, some Error.readMapNullKey)) :=
  ⟨(null_map_key sampleConstants sampleGs 0 0 0 2 1 sampleEntry
      [([0x61], Value.string [0x62])] 0x01 (by decide) sampleEntry_valid (by decide)).1,
   ((null_map_key sampleConstants sampleGs 0 0 0 2 1 sampleEntry
      [([0x61], Value.string [0x62])] 0x01 (by decide) sampleEntry_valid (by decide)).2
      0x81 0 sampleID 0 0 0 200 1 [] (by decide) (by decide)).1,
   ((null_map_key sampleConstants sampleGs 0 0 0 2 1 sampleEntry
      [([0x61], Value.string [0x62])] 0x01 (by decide) sampleEntry_valid (by decide)).2
      0x81 0 sampleID 0 0 0 200 1 [] (by decide) (by decide)).2
      [0, 0, 0, 0] [] (readMap_empty sampleConstants sampleGs)⟩

/-! ## No partial response -/

theorem deserializeMessage_error_zero (c : Constants) (gs : graphBinarySerializer)
    (buffer : Bytes) (resp : response) (err : Error)
    (h : deserializeMessage c gs buffer = (resp, some err)) : resp = response.zero := by
  unfold deserializeMessage at h
  simp only at h
  repeat' split at h
  all_goals first
    | (simp only [Prod.mk.injEq] at h; exact h.1.symm)
    | (simp at h)

/-- C12. No partial response: whenever `deserializeMessage` returns an error,
at whatever step, the response returned with it is the zero value: zero
identifier, status code 0, empty message, no status attributes, no meta, no
data. -/
theorem no_partial_response (c : Constants) (gs : graphBinarySerializer) (buffer : Bytes)
    (resp : response) (err : Error) (h : deserializeMessage c gs buffer = (resp, some err)) :
    resp = response.zero
    ∧ resp.responseID = List.replicate 16 0
    ∧ resp.responseStatus.code = 0
    ∧ resp.responseStatus.message = []
    ∧ resp.responseStatus.attributes = []
    ∧ resp.responseResult.meta = []
    ∧ resp.responseResult.data = Value.nil := by
  have hz : resp = response.zero := deserializeMessage_error_zero c gs buffer resp err h
  subst hz
  exact ⟨rfl, rfl, rfl, rfl, rfl, rfl, rfl⟩

/-- Witness of C12: the identifier, the status code and the message of the
truncated response are read, the meta attributes are missing, and the response
returned with the error is the zero value. -/
theorem no_partial_response_witness :
    deserializeMessage sampleConstants sampleGs truncatedResponse
        = (response.zero, some Error.eof)
    ∧ (response.zero = response.zero
      ∧ response.zero.responseID = List.replicate 16 0
      ∧ response.zero.responseStatus.code = 0
      ∧ response.zero.responseStatus.message = []
      ∧ response.zero.responseStatus.attributes = []
      ∧ response.zero.responseResult.meta = []
      ∧ response.zero.responseResult.data = Value.nil) :=
  ⟨by rfl,
   no_partial_response sampleConstants sampleGs truncatedResponse response.zero Error.eof
     (by rfl)⟩

/-! ## Strings -/

theorem buildMessage_strings (gs : graphBinarySerializer) (id : UUID) (mimeLen : Nat)
    (op processor : GoString) (args : GoMap) (msg : Bytes)
    (h : buildMessage gs id mimeLen op processor args = .ok msg) :
    ∃ tail, msg.drop 50
      = putUint32 op.length ++ (op ++ (putUint32 processor.length ++ (processor ++ tail))) := by
  rw [buildMessage_eq, foldlM_buildMessageArg, putUint32_uint32, putUint32_uint32] at h
  revert h
  cases argEncodings gs _ args with
  | error err => intro h; cases h
  | ok es =>
    intro h
    simp only [Except.ok.injEq] at h
    refine ⟨putUint32 (uint32 args.length) ++ es.flatten, ?_⟩
    have hl : ([mimeLen] ++ graphBinaryMimeType ++ [versionByte]
        ++ (putUint64 (bigUint64 (bigRsh (uuidToBigInt id) 64))
            ++ putUint64 (bigUint64 (uuidToBigInt id)))).length = 50 := by
      rw [List.length_append, header_length, idBytes_length]
    rw [← h, ← hl]
    simp only [List.append_assoc]
    exact List.drop_left _ _

/-- C13. String length semantics and round trip: for every byte string `s`
shorter than 2^32 bytes and every suffix `rest`, `readString` applied to the
4-byte big-endian byte length of `s`, then `s`, then `rest`, returns exactly
`s` without error and leaves exactly `rest` unread. The length prefixes
`buildMessage` writes for operation and processor (from byte 50 of the
message) are these same byte lengths: `readString` reads the operation back,
then the processor. -/
theorem string_round_trip (s : GoString) (rest : Bytes) (hs : s.length < 2 ^ 32) :
    readString (putUint32 s.length ++ s ++ rest) = .ok (s, rest)
    ∧ beNat (putUint32 s.length) = s.length
    ∧ ∀ (gs : graphBinarySerializer) (id : UUID) (mimeLen : Nat) (processor : GoString)
        (args : GoMap) (msg : Bytes), processor.length < 2 ^ 32 →
        buildMessage gs id mimeLen s processor args = .ok msg →
        (msg.drop 50).take 4 = putUint32 s.length
        ∧ ∃ t1 t2, readString (msg.drop 50) = .ok (s, t1)
            ∧ t1.take 4 = putUint32 processor.length
            ∧ readString t1 = .ok (processor, t2) := by
  refine ⟨?_, beNat_putUint32 _ hs, ?_⟩
  · rw [List.append_assoc]
    exact readString_ok s rest hs
  · intro gs id mimeLen processor args msg hp h
    obtain ⟨tail, ht⟩ := buildMessage_strings gs id mimeLen s processor args msg h
    rw [ht]
    refine ⟨by simp [putUint32], putUint32 processor.length ++ (processor ++ tail), tail,
      readString_ok s _ hs, by simp [putUint32], readString_ok processor tail hp⟩

/-- Witness of C13: the empty string, and the operation `é`, one character
encoded in two bytes, whose length prefix is 2. -/
theorem string_round_trip_witness :
    (readString (putUint32 ([] : GoString).length ++ [] ++ [7, 8]) = .ok ([], [7, 8]))
    ∧ (utf8 "é" = [0xC3, 0xA9] ∧ "é".length = 1 ∧ putUint32 (utf8 "é").length = [0, 0, 0, 2]
      ∧ readString (putUint32 (utf8 "é").length ++ utf8 "é" ++ [7, 8]) = .ok (utf8 "é", [7, 8])
      ∧ buildMessage sampleGs sampleID 32 (utf8 "é") [] []
          = .ok (requestPreamble 32 sampleID (utf8 "é") [] 0)
      ∧ ((requestPreamble 32 sampleID (utf8 "é") [] 0).drop 50).take 4
          = putUint32 (utf8 "é").length) :=
  ⟨(string_round_trip [] [7, 8] (by decide)).1,
   by decide, by decide, by decide,
   (string_round_trip (utf8 "é") [7, 8] (by decide)).1,
   by decide,
   ((string_round_trip (utf8 "é") [7, 8] (by decide)).2.2 sampleGs sampleID 32 [] []
      (requestPreamble 32 sampleID (utf8 "é") [] 0) (by decide) (by decide)).1⟩

/-! ## Truncated strings -/

/-- C14. Truncated declared length: on a buffer shorter than 4 bytes, and on a
buffer whose first 4 bytes declare a big-endian length greater than the number
of bytes after them, `readString` returns an error, never a string; so
`deserializeMessage` fails when the declared length of the status message
exceeds the bytes that follow it. -/
theorem truncated_string (buffer : Bytes) :
    (buffer.length < 4 → ∃ err, readString buffer = .error err)
    ∧ (∀ b0 b1 b2 b3 rest, buffer = b0 :: b1 :: b2 :: b3 :: rest →
        rest.length < beUint32 b0 b1 b2 b3 →
        (∃ err, readString buffer = .error err)
        ∧ ∀ (c : Constants) (gs : graphBinarySerializer) (version flag : Nat) (id : UUID)
            (s0 s1 s2 s3 : Nat), id.length = 16 →
            ∃ err, deserializeMessage c gs
                ([version, flag] ++ id ++ [s0, s1, s2, s3] ++ [0] ++ buffer)
              = (response.zero, some err)) := by
  have hlong : ∀ b0 b1 b2 b3 rest, rest.length < beUint32 b0 b1 b2 b3 →
      ∃ err, readString (b0 :: b1 :: b2 :: b3 :: rest) = .error err := by
    intro b0 b1 b2 b3 rest hlen
    have hne : beUint32 b0 b1 b2 b3 ≠ 0 := by omega
    unfold readString
    simp only [readUint32, readFull, if_neg hne]
    cases rest with
    | nil => exact ⟨_, rfl⟩
    | cons x xs => simp only [if_pos hlen]; exact ⟨_, rfl⟩
  constructor
  · intro hlen
    unfold readString readUint32
    match buffer, hlen with
    | [], _ => exact ⟨_, rfl⟩
    | [_], _ => exact ⟨_, rfl⟩
    | [_, _], _ => exact ⟨_, rfl⟩
    | [_, _, _], _ => exact ⟨_, rfl⟩
    | _ :: _ :: _ :: _ :: _, h => simp at h; omega
  · intro b0 b1 b2 b3 rest hb hlen
    obtain ⟨err, herr⟩ := hlong b0 b1 b2 b3 rest hlen
    refine ⟨⟨err, by rw [hb]; exact herr⟩, ?_⟩
    intro c gs version flag id s0 s1 s2 s3 hid
    refine ⟨err, ?_⟩
    have e : [version, flag] ++ id ++ [s0, s1, s2, s3] ++ [0] ++ buffer
        = version :: flag :: (id ++ s0 :: s1 :: s2 :: s3 :: 0 :: buffer) := by simp
    rw [e, hb]
    unfold deserializeMessage
    simp only [readByte, readUUID_ok flag id _ hid, readUint32, if_true, herr]

/-- Witness of C14: two bytes only, and a declared length of 5 with 2 bytes
left. -/
theorem truncated_string_witness :
    (∃ err, readString [0, 0] = .error err)
    ∧ (∃ err, readString [0, 0, 0, 5, 0x4F, 0x4B] = .error err)
    ∧ (∃ err, deserializeMessage sampleConstants sampleGs
          ([0x81, 0] ++ sampleID ++ [0, 0, 0, 200] ++ [0] ++ [0, 0, 0, 5, 0x4F, 0x4B])
        = (response.zero, some err)) :=
  ⟨(truncated_string [0, 0]).1 (by decide),
   ((truncated_string [0, 0, 0, 5, 0x4F, 0x4B]).2 0 0 0 5 [0x4F, 0x4B] rfl (by decide)).1,
   ((truncated_string [0, 0, 0, 5, 0x4F, 0x4B]).2 0 0 0 5 [0x4F, 0x4B] rfl (by decide)).2
     sampleConstants sampleGs 0x81 0 sampleID 0 0 0 200 (by decide)⟩

/-! ## Layout of a response -/

theorem GoMap.set_of_not_mem (m : GoMap) (k : GoString) (v : Value)
    (h : ∀ kv ∈ m, kv.1 ≠ k) : m.set k v = m ++ [(k, v)] := by
  induction m with
  | nil => rfl
  | cons kv rest ih =>
    obtain ⟨k0, v0⟩ := kv
    have hk : ¬ k0 = k := h (k0, v0) (by simp)
    simp only [GoMap.set, if_neg hk, List.cons_append]
    rw [ih (fun kv hkv => h kv (by simp [hkv]))]

theorem GoMap.foldl_set (es m0 : GoMap) (h : GoMap.wf (m0 ++ es)) :
    es.foldl (fun acc kv => acc.set kv.1 kv.2) m0 = m0 ++ es := by
  induction es generalizing m0 with
  | nil => simp
  | cons kv rest ih =>
    have hnotin : ∀ x ∈ m0, x.1 ≠ kv.1 := by
      unfold GoMap.wf at h
      rw [List.map_append, List.map_cons] at h
      have hd := (List.nodup_append.mp h).2.2
      intro x hx e
      exact hd (List.mem_map_of_mem Prod.fst hx) (by rw [e]; simp)
    simp only [List.foldl_cons]
    rw [GoMap.set_of_not_mem m0 kv.1 kv.2 hnotin, ih]
    · simp
    · simpa using h

theorem readMapLoop_entries (c : Constants) (gs : graphBinarySerializer) (enc : Value → Bytes)
    (es : GoMap) :
    ∀ (m0 : GoMap) (rest : Bytes), (∀ kv ∈ es, kv.1.length < 2 ^ 32) →
      (∀ kv ∈ es, ∀ rest, gs.ser.read (enc kv.2 ++ rest) = .ok (kv.2, rest)) →
      readMapLoop c gs es.length (es.flatMap (entryBytes c enc) ++ rest) m0
        = .ok (es.foldl (fun acc kv => acc.set kv.1 kv.2) m0, rest) := by
  induction es with
  | nil => intro m0 rest _ _; simp [readMapLoop]
  | cons kv tl ih =>
    intro m0 rest hlen hread
    have hk : kv.1.length < 2 ^ 32 := hlen kv (by simp)
    have hv := hread kv (by simp)
    have e : (kv :: tl).flatMap (entryBytes c enc) ++ rest
        = c.stringType :: 0 :: (putUint32 kv.1.length
            ++ (kv.1 ++ (enc kv.2 ++ (tl.flatMap (entryBytes c enc) ++ rest)))) := by
      simp [entryBytes, List.flatMap_cons]
    rw [e, List.length_cons]
    simp only [readMapLoop, readByte, ne_eq, not_true_eq_false, if_false,
      readString_ok kv.1 _ hk, hv, List.foldl_cons]
    exact ih _ rest (fun x hx => hlen x (by simp [hx])) (fun x hx => hread x (by simp [hx]))

theorem readMap_mapBytes (c : Constants) (gs : graphBinarySerializer) (enc : Value → Bytes)
    (m : GoMap) (rest : Bytes) (hcount : m.length < 2 ^ 32)
    (hlen : ∀ kv ∈ m, kv.1.length < 2 ^ 32) (hwf : GoMap.wf m)
    (hread : ∀ kv ∈ m, ∀ rest, gs.ser.read (enc kv.2 ++ rest) = .ok (kv.2, rest)) :
    readMap c (mapBytes c enc m ++ rest) gs = .ok (m, rest) := by
  unfold readMap mapBytes
  rw [List.append_assoc, readUint32_putUint32 _ _ hcount]
  simp only []
  rw [readMapLoop_entries c gs enc m [] rest hlen hread, GoMap.foldl_set m [] (by simpa using hwf)]
  simp

/-- C15. Response decoding follows the wire layout: the buffer made of a
version byte, a flag byte, the 16 bytes of `u`, the status word `w` in 4 bytes
big-endian, the status message (flag 0, 4-byte length and bytes, or a nonzero
flag alone), the string-keyed maps `A` and `M` with distinct keys (count, then
per entry string tag, 0x00, length-prefixed key, typed value) and the typed
value `v`, is decoded without error to the response with identifier `u`,
status code `w & 0xFF`, the message (empty when the flag is nonzero), status
attributes `A`, meta `M` and data `v`, given that the type serializer reads
each typed value and consumes exactly its bytes. -/
theorem response_layout (c : Constants) (gs : graphBinarySerializer) (enc : Value → Bytes)
    (version flag : Nat) (u : UUID) (w nullFlag : Nat) (message : GoString) (A M : GoMap)
    (v : Value)
    (hu : u.length = 16) (hw : w < 2 ^ 32) (hm : message.length < 2 ^ 32)
    (hA : A.length < 2 ^ 32) (hM : M.length < 2 ^ 32)
    (hkA : ∀ kv ∈ A, kv.1.length < 2 ^ 32) (hkM : ∀ kv ∈ M, kv.1.length < 2 ^ 32)
    (hAwf : GoMap.wf A) (hMwf : GoMap.wf M)
    (hread : ∀ x, (x ∈ A.map Prod.snd ∨ x ∈ M.map Prod.snd ∨ x = v) →
      ∀ rest, gs.ser.read (enc x ++ rest) = .ok (x, rest)) :
    deserializeMessage c gs (responseBytes c enc version flag u w nullFlag message A M v)
      = ({ responseID := u
           responseStatus :=
             { code := w &&& 0xFF
               message := if nullFlag = 0 then message else []
               attributes := A }
           responseResult := { meta := M, data := v } }, none)
    ∧ w &&& 0xFF = w % 256 := by
  refine ⟨?_, mask_eq_mod w⟩
  have e : responseBytes c enc version flag u w nullFlag message A M v
      = responseHead version flag u (w / 2 ^ 24 % 256) (w / 2 ^ 16 % 256) (w / 2 ^ 8 % 256)
          (w % 256) nullFlag message
          ++ (mapBytes c enc A ++ (mapBytes c enc M ++ (enc v ++ []))) := by
    simp [responseBytes, responseHead, putUint32]
  have hbe : beUint32 (w / 2 ^ 24 % 256) (w / 2 ^ 16 % 256) (w / 2 ^ 8 % 256) (w % 256) = w := by
    unfold beUint32; omega
  have hcode : uint16 (w &&& 0xFF) = w &&& 0xFF := by
    rw [mask_eq_mod, uint16]
    exact Nat.mod_eq_of_lt (by omega)
  rw [e, deserializeMessage_head c gs version flag u _ _ _ _ nullFlag message _ hu hm,
    readMap_mapBytes c gs enc A _ hA hkA hAwf
      (fun kv hkv => hread kv.2 (Or.inl (List.mem_map_of_mem Prod.snd hkv)))]
  simp only []
  rw [readMap_mapBytes c gs enc M _ hM hkM hMwf
      (fun kv hkv => hread kv.2 (Or.inr (Or.inl (List.mem_map_of_mem Prod.snd hkv))))]
  simp only []
  rw [hread v (Or.inr (Or.inr rfl)) [], hbe, hcode]

theorem sampleSer_read_string (s : GoString) (rest : Bytes) (h : s.length < 2 ^ 32) :
    sampleGs.ser.read (sampleEnc (Value.string s) ++ rest) = .ok (Value.string s, rest) := by
  have e : sampleEnc (Value.string s) ++ rest
      = 0x03 :: 0x00 :: (putUint32 s.length ++ (s ++ rest)) := by
    simp [sampleEnc, sampleEncode, putUint32_uint32]
  rw [e]
  simp [sampleGs, sampleSer, graphBinaryTypeSerializer.read, readString_ok s rest h]

/-- Witness of C15: status word 456, message `OK`, one status attribute
`a` ↦ `b`, no meta attribute, the string `A` as data. -/
theorem response_layout_witness :
    responseBytes sampleConstants sampleEnc 0x81 0 sampleID 456 0 (utf8 "OK")
        [([0x61], Value.string [0x62])] [] (Value.string [0x41])
      = [0x81, 0] ++ sampleID ++ [0, 0, 0x01, 0xC8] ++ [0, 0, 0, 0, 2, 0x4F, 0x4B]
          ++ [0, 0, 0, 1, 0x03, 0, 0, 0, 0, 1, 0x61, 0x03, 0, 0, 0, 0, 1, 0x62]
          ++ [0, 0, 0, 0] ++ [0x03, 0, 0, 0, 0, 1, 0x41]
    ∧ (deserializeMessage sampleConstants sampleGs
        (responseBytes sampleConstants sampleEnc 0x81 0 sampleID 456 0 (utf8 "OK")
          [([0x61], Value.string [0x62])] [] (Value.string [0x41]))
      = ({ responseID := sampleID
           responseStatus :=
             { code := 456 &&& 0xFF
               message := if 0 = 0 then utf8 "OK" else []
               attributes := [([0x61], Value.string [0x62])] }
           responseResult := { meta := [], data := Value.string [0x41] } }, none)
      ∧ 456 &&& 0xFF = 456 % 256) :=
  ⟨by decide,
   response_layout sampleConstants sampleGs sampleEnc 0x81 0 sampleID 456 0 (utf8 "OK")
     [([0x61], Value.string [0x62])] [] (Value.string [0x41])
     (by decide) (by decide) (by decide) (by decide) (by decide)
     (by intro kv hkv; simp only [List.mem_singleton] at hkv; rw [hkv]; decide)
     (by intro kv hkv; cases hkv)
     (by unfold GoMap.wf; decide) (by unfold GoMap.wf; decide)
     (by
       intro x hx rest
       simp only [List.map_cons, List.map_nil, List.mem_singleton, List.not_mem_nil,
         false_or] at hx
       rcases hx with h | h
       · rw [h]; exact sampleSer_read_string _ rest (by decide)
       · rw [h]; exact sampleSer_read_string _ rest (by decide))⟩

/-! ## Version byte and identifier flag -/

theorem deserializeMessage_first_two (c : Constants) (gs : graphBinarySerializer)
    (v1 f1 v2 f2 : Nat) (rest : Bytes) :
    deserializeMessage c gs (v1 :: f1 :: rest) = deserializeMessage c gs (v2 :: f2 :: rest) := by
  simp only [deserializeMessage, readByte, readUUID]

/-- C16. The version byte and the identifier flag byte of a response are
discarded: two buffers of the same length that differ at most in byte 0 and
byte 1 are decoded to the same result, response or error; whatever the flag,
the 16 bytes after it are the identifier of a decoded response. -/
theorem version_and_flag_discarded (c : Constants) (gs : graphBinarySerializer)
    (buffer1 buffer2 : Bytes) (hlen : buffer1.length = buffer2.length)
    (hrest : buffer1.drop 2 = buffer2.drop 2) :
    deserializeMessage c gs buffer1 = deserializeMessage c gs buffer2
    ∧ ∀ resp, deserializeMessage c gs buffer1 = (resp, none) →
        resp.responseID = (buffer1.drop 2).take 16
        ∧ resp.responseID = (buffer2.drop 2).take 16 := by
  constructor
  · match buffer1, buffer2, hlen, hrest with
    | [], [], _, _ => rfl
    | [_], [_], _, _ => rfl
    | v1 :: f1 :: r1, v2 :: f2 :: r2, _, hr =>
      simp only [List.drop_succ_cons, List.drop_zero] at hr
      rw [hr]
      exact deserializeMessage_first_two c gs v1 f1 v2 f2 r2
    | [], _ :: _, h, _ => simp at h
    | _ :: _, [], h, _ => simp at h
    | [_], _ :: _ :: _, h, _ => simp at h
    | _ :: _ :: _, [_], h, _ => simp at h
  · intro resp h
    obtain ⟨version, flag, id, b0, b1, b2, b3, rest, hb, hid, hresp, -⟩ :=
      deserializeMessage_inv c gs buffer1 resp h
    have e : (buffer1.drop 2).take 16 = id := by
      rw [hb]
      simp only [List.drop_succ_cons, List.drop_zero]
      rw [← hid, List.take_left]
    exact ⟨by rw [e]; exact hresp, by rw [← hrest, e]; exact hresp⟩

/-- Witness of C16: the example response with another version byte and a
nonzero identifier flag. -/
theorem version_and_flag_discarded_witness :
    (sampleResponse.length = (0x00 :: 0x01 :: sampleResponse.drop 2).length
      ∧ sampleResponse.drop 2 = (0x00 :: 0x01 :: sampleResponse.drop 2).drop 2)
    ∧ (deserializeMessage sampleConstants sampleGs sampleResponse
        = deserializeMessage sampleConstants sampleGs (0x00 :: 0x01 :: sampleResponse.drop 2)
      ∧ ∀ resp, deserializeMessage sampleConstants sampleGs sampleResponse = (resp, none) →
        resp.responseID = (sampleResponse.drop 2).take 16
        ∧ resp.responseID = ((0x00 :: 0x01 :: sampleResponse.drop 2).drop 2).take 16)
    ∧ (deserializeMessage sampleConstants sampleGs
        (0x00 :: 0x01 :: sampleResponse.drop 2)).1.responseID = sampleID :=
  ⟨⟨by decide, by decide⟩,
   version_and_flag_discarded sampleConstants sampleGs sampleResponse
     (0x00 :: 0x01 :: sampleResponse.drop 2) (by decide) (by decide),
   by rfl⟩

/-! ## Short inputs -/

theorem readString_length (buffer : Bytes) (s : GoString) (rest : Bytes)
    (h : readString buffer = .ok (s, rest)) : buffer.length = 4 + s.length + rest.length := by
  unfold readString at h
  split at h
  · cases h
  · rename_i n b1 h1
    split at h
    · cases h
    · rename_i taken b2 h2
      simp only [Except.ok.injEq, Prod.mk.injEq] at h
      obtain ⟨b0, x1, x2, x3, e1, -⟩ := readUint32_ok buffer n b1 h1
      obtain ⟨e2, -⟩ := readFull_ok n b1 taken b2 h2
      rw [e1, e2, ← h.1, ← h.2]
      simp only [List.length_cons, List.length_append]
      omega

theorem readMap_length (c : Constants) (gs : graphBinarySerializer) (buffer : Bytes)
    (m : GoMap) (rest : Bytes) (h : readMap c buffer gs = .ok (m, rest)) :
    (buffer.length = 4 + rest.length) ∨ 10 ≤ buffer.length := by
  unfold readMap at h
  split at h
  · cases h
  · rename_i n b1 h1
    obtain ⟨b0, x1, x2, x3, e1, -⟩ := readUint32_ok buffer n b1 h1
    cases n with
    | zero =>
      simp only [readMapLoop, Except.ok.injEq, Prod.mk.injEq] at h
      left
      rw [e1, ← h.2]
      simp only [List.length_cons]
      omega
    | succ n =>
      right
      simp only [readMapLoop] at h
      split at h
      · cases h
      · rename_i keyType b2 h2
        split at h
        · cases h
        · split at h
          · cases h
          · rename_i nullable b3 h3
            split at h
            · cases h
            · split at h
              · cases h
              · rename_i key b4 h4
                have l2 := readByte_ok b1 keyType b2 h2
                have l3 := readByte_ok b2 nullable b3 h3
                have l4 := readString_length b3 key b4 h4
                rw [e1, l2, l3]
                simp only [List.length_cons]
                omega

theorem deserializeMessage_ok_length (c : Constants) (gs : graphBinarySerializer)
    (buffer : Bytes) (resp : response) (h : deserializeMessage c gs buffer = (resp, none)) :
    31 ≤ buffer.length := by
  unfold deserializeMessage at h
  simp only at h
  split at h
  · simp at h
  · rename_i version buffer1 h1
    split at h
    · simp at h
    · rename_i id buffer2 h2
      split at h
      · simp at h
      · rename_i statusCode buffer3 h3
        split at h
        · simp at h
        · rename_i statusMessageNull buffer4 h4
          split at h
          · simp at h
          · rename_i statusMessage buffer5 h5
            split at h
            · simp at h
            · rename_i statusAttributes buffer6 h6
              split at h
              · simp at h
              · rename_i metaAttributes buffer7 h7
                have l1 := readByte_ok buffer version buffer1 h1
                obtain ⟨flag, l2, hid⟩ := readUUID_inv buffer1 id buffer2 h2
                obtain ⟨b0, b1, b2, b3, l3, -⟩ := readUint32_ok buffer2 statusCode buffer3 h3
                have l4 := readByte_ok buffer3 statusMessageNull buffer4 h4
                have l5 : buffer5.length ≤ buffer4.length := by
                  by_cases h0 : statusMessageNull = 0
                  · rw [if_pos h0] at h5
                    have := readString_length buffer4 statusMessage buffer5 h5
                    omega
                  · rw [if_neg h0] at h5
                    simp only [Except.ok.injEq, Prod.mk.injEq] at h5
                    rw [h5.2]
                have l6 := readMap_length c gs buffer5 statusAttributes buffer6 h6
                have l7 := readMap_length c gs buffer6 metaAttributes buffer7 h7
                rw [l1, l2, l3, l4]
                simp only [List.length_cons, List.length_append, hid]
                omega

/-- C19. On every input shorter than 31 bytes (1 version byte, 17 identifier
bytes, 4 status bytes, 1 message flag, two 4-byte map counts), whatever the
type serializer reads, `deserializeMessage` returns an error, with the zero
response; on the empty input the error is the end of input. No read goes past
the end of the buffer: a read that succeeds returns bytes the buffer holds and
leaves the bytes after them. -/
theorem short_input (c : Constants) (gs : graphBinarySerializer) (buffer : Bytes)
    (h : buffer.length < 31) :
    (∃ err, deserializeMessage c gs buffer = (response.zero, some err))
    ∧ deserializeMessage c gs [] = (response.zero, some Error.eof)
    ∧ (∀ b rest, readByte buffer = .ok (b, rest) → buffer = b :: rest)
    ∧ (∀ n rest, readUint32 buffer = .ok (n, rest) →
        ∃ b0 b1 b2 b3, buffer = b0 :: b1 :: b2 :: b3 :: rest)
    ∧ (∀ n taken rest, readFull n buffer = .ok (taken, rest) →
        buffer = taken ++ rest ∧ taken.length = n) := by
  refine ⟨?_, rfl, readByte_ok buffer, ?_, fun n => readFull_ok n buffer⟩
  · rcases hd : deserializeMessage c gs buffer with ⟨resp, oerr⟩
    cases oerr with
    | none =>
      have := deserializeMessage_ok_length c gs buffer resp hd
      omega
    | some err =>
      rw [deserializeMessage_error_zero c gs buffer resp err hd]
      exact ⟨err, rfl⟩
  · intro n rest hr
    obtain ⟨b0, b1, b2, b3, e, -⟩ := readUint32_ok buffer n rest hr
    exact ⟨b0, b1, b2, b3, e⟩

/-- Witness of C19: the 30 bytes of a response cut before the last byte of its
second map count. -/
theorem short_input_witness :
    (responseHead 0x81 0 sampleID 0 0 0 200 1 [] ++ [0, 0, 0, 0] ++ [0, 0, 0]).length = 30
    ∧ (∃ err, deserializeMessage sampleConstants sampleGs
        (responseHead 0x81 0 sampleID 0 0 0 200 1 [] ++ [0, 0, 0, 0] ++ [0, 0, 0])
          = (response.zero, some err)) :=
  ⟨by decide,
   (short_input sampleConstants sampleGs
     (responseHead 0x81 0 sampleID 0 0 0 200 1 [] ++ [0, 0, 0, 0] ++ [0, 0, 0])
     (by decide)).1⟩

/-! ## Pre-encoding and the generic path -/

theorem argEncodings_congr (gs : graphBinarySerializer) (a1 a2 : GoMap)
    (kv1 kv2 : GoString × Value)
    (h : ∀ buffer, argEncoding gs buffer kv1 = argEncoding gs buffer kv2) :
    ∀ buffer, argEncodings gs buffer (a1 ++ kv1 :: a2)
      = argEncodings gs buffer (a1 ++ kv2 :: a2) := by
  induction a1 with
  | nil =>
    intro buffer
    simp only [List.nil_append, argEncodings, h buffer]
  | cons kv rest ih =>
    intro buffer
    have e1 : argEncodings gs buffer (kv :: (rest ++ kv1 :: a2))
        = argEncodings gs buffer (kv :: (rest ++ kv2 :: a2)) := by
      simp only [argEncodings]
      cases argEncoding gs buffer kv with
      | error err => rfl
      | ok e => simp only [ih (buffer ++ e)]
    exact e1

theorem argEncoding_preencoded (gs : graphBinarySerializer)
    (hindep : ∀ v b1 b2, gs.ser.encode v b1 = gs.ser.encode v b2)
    (k : GoString) (b : List (GoString × List Value)) (g : Bytes)
    (hg : gs.ser.encode (Value.bytecode b) [] = .ok g) (buffer : Bytes) :
    argEncoding gs buffer (k, Value.byteSlice g) = argEncoding gs buffer (k, Value.bytecode b) := by
  unfold argEncoding
  cases gs.ser.encode (Value.string k) buffer with
  | error err => rfl
  | ok keyBytes =>
    simp only [hindep (Value.bytecode b) (buffer ++ keyBytes) [], hg]

theorem argEncodings_bytecode_ok (gs : graphBinarySerializer) (a1 a2 : GoMap) (k : GoString)
    (b : List (GoString × List Value)) (buffer : Bytes) (es : List Bytes)
    (h : argEncodings gs buffer (a1 ++ (k, Value.bytecode b) :: a2) = .ok es) :
    ∃ buffer1 g, gs.ser.encode (Value.bytecode b) buffer1 = .ok g := by
  obtain ⟨es1, e, es2, -, -, h2, -⟩ := argEncodings_split gs a1 a2 _ buffer es h
  obtain ⟨keyBytes, valueBytes, -, -, -, hval⟩ := argEncoding_inv gs _ k _ e h2
  exact ⟨_, valueBytes, hval (fun r hr => by cases hr)⟩

/-- C17. Pre-encoding is transparent on the wire: when the type serializer
appends the same bytes for a value whatever the buffer holds, then for every
bytecode-evaluation request whose `args["gremlin"]` is a bytecode value,
`serializeMessage` returns bytes exactly when `buildMessage` does on the
original, unconverted argument map in the same order, and the bytes are the
same. -/
theorem preencoding_transparent (c : Constants) (gs : graphBinarySerializer) (r : request)
    (b : List (GoString × List Value))
    (hindep : ∀ v b1 b2, gs.ser.encode v b1 = gs.ser.encode v b2)
    (hop : r.op = c.bytecodeProcessor)
    (hg : r.args.get (utf8 "gremlin") = Value.bytecode b) :
    ∀ bytes, (serializeMessage c gs r).1 = .ok bytes
      ↔ buildMessage gs r.requestID (uint8 graphBinaryMimeType.length) r.op r.processor r.args
          = .ok bytes := by
  intro bytes
  have h32 : uint8 graphBinaryMimeType.length = 32 := by decide
  obtain ⟨a1, a2, hsplit, -, hset⟩ :=
    GoMap.split_of_get r.args (utf8 "gremlin") (Value.bytecode b) hg (by intro e; cases e)
  rw [h32, serializeMessage_eq, convertArgs_bytecode c r gs b hop hg]
  cases he : gs.ser.encode (Value.bytecode b) [] with
  | error ce =>
    simp only []
    constructor
    · intro h; cases h
    · intro h
      rw [buildMessage_eq, foldlM_buildMessageArg, hsplit] at h
      revert h
      cases hes : argEncodings gs _ (a1 ++ (utf8 "gremlin", Value.bytecode b) :: a2) with
      | error err => intro h; cases h
      | ok es =>
        intro _
        obtain ⟨buffer1, g, hok⟩ := argEncodings_bytecode_ok gs a1 a2 _ b _ es hes
        rw [hindep _ buffer1 [], he] at hok
        cases hok
  | ok g =>
    simp only []
    have hlen : (r.args.set (utf8 "gremlin") (Value.byteSlice g)).length = r.args.length :=
      GoMap.length_set_of_get _ _ _ (by rw [hg]; intro e; cases e)
    rw [buildMessage_eq, buildMessage_eq, foldlM_buildMessageArg, foldlM_buildMessageArg, hlen,
      hset]
    conv => rhs; rw [hsplit]
    rw [argEncodings_congr gs a1 a2 _ _
      (argEncoding_preencoded gs hindep (utf8 "gremlin") b g he), ← hsplit]

/-- Witness of C17: a request of the operation `traversal`, the driver's
`bytecodeProcessor`, with the bytecode of `g.V()` under `gremlin`. -/
theorem preencoding_transparent_witness :
    bytecodeRequest.op = sampleConstants.bytecodeProcessor
    ∧ (serializeMessage sampleConstants sampleGs bytecodeRequest).1
        = buildMessage sampleGs bytecodeRequest.requestID (uint8 graphBinaryMimeType.length)
            bytecodeRequest.op bytecodeRequest.processor bytecodeRequest.args
    ∧ ∀ bytes, (serializeMessage sampleConstants sampleGs bytecodeRequest).1 = .ok bytes
      ↔ buildMessage sampleGs bytecodeRequest.requestID (uint8 graphBinaryMimeType.length)
          bytecodeRequest.op bytecodeRequest.processor bytecodeRequest.args = .ok bytes :=
  ⟨by decide, by decide,
   preencoding_transparent sampleConstants sampleGs bytecodeRequest [(utf8 "V", [])]
     (fun _ _ _ => rfl) (by decide) (by rfl)⟩

/-! ## Serializing a request twice -/

theorem GoMap.get_set_self (m : GoMap) (k : GoString) (v : Value) : (m.set k v).get k = v := by
  induction m with
  | nil => simp [GoMap.set, GoMap.get]
  | cons kv rest ih =>
    obtain ⟨k0, v0⟩ := kv
    by_cases hk : k0 = k
    · simp [GoMap.set, GoMap.get, hk]
    · simp [GoMap.set, GoMap.get, hk, ih]

/-- C18. After `serializeMessage` has succeeded on a bytecode-evaluation
request whose `args["gremlin"]` was a bytecode value, the request holds the raw
encoded bytes under `gremlin`, and a second `serializeMessage` on it fails with
`NoSerializerForArgument` carrying the empty type name. -/
theorem second_serializeMessage_fails (c : Constants) (gs : graphBinarySerializer)
    (r r1 : request) (b : List (GoString × List Value)) (bytes : Bytes)
    (hop : r.op = c.bytecodeProcessor)
    (hg : r.args.get (utf8 "gremlin") = Value.bytecode b)
    (h : serializeMessage c gs r = (.ok bytes, r1)) :
    (∃ g, gs.ser.write (Value.bytecode b) [] = .ok g
      ∧ r1.args.get (utf8 "gremlin") = Value.byteSlice g)
    ∧ serializeMessage c gs r1 = (.error (Error.convertArgsNoSerializer ""), r1) := by
  rw [serializeMessage_eq, convertArgs_bytecode c r gs b hop hg] at h
  revert h
  cases he : gs.ser.encode (Value.bytecode b) [] with
  | error ce => intro h; simp at h
  | ok g =>
    intro h
    simp only [Prod.mk.injEq] at h
    obtain ⟨-, hr1⟩ := h
    have hget : r1.args.get (utf8 "gremlin") = Value.byteSlice g := by
      rw [← hr1]
      exact GoMap.get_set_self _ _ _
    have hop1 : r1.op = c.bytecodeProcessor := by rw [← hr1]; exact hop
    refine ⟨⟨g, ?_, hget⟩, ?_⟩
    · unfold graphBinaryTypeSerializer.write
      simp only [he, List.nil_append]
    · rw [serializeMessage_eq,
        convertArgs_not_bytecode c r1 gs hop1 (by rw [hget]; intro b1 e; cases e), hget]
      rfl

/-- Witness of C18: the request of the operation `traversal`, the driver's
`bytecodeProcessor`, with a bytecode under `gremlin`, serialized twice. -/
theorem second_serializeMessage_fails_witness :
    (bytecodeRequest.op = sampleConstants.bytecodeProcessor
      ∧ (serializeMessage sampleConstants sampleGs bytecodeRequest).1
          = .ok (requestPreamble 32 sampleID (utf8 "traversal") [] 1
              ++ ([0x03, 0x00, 0, 0, 0, 7] ++ utf8 "gremlin")
              ++ [0x15, 0x00, 0, 0, 0, 1, 0, 0, 0, 1, 0x56, 0, 0, 0, 0]))
    ∧ ((∃ g, sampleGs.ser.write (Value.bytecode [(utf8 "V", [])]) [] = .ok g
        ∧ (serializeMessage sampleConstants sampleGs bytecodeRequest).2.args.get (utf8 "gremlin")
            = Value.byteSlice g)
      ∧ serializeMessage sampleConstants sampleGs
          (serializeMessage sampleConstants sampleGs bytecodeRequest).2
        = (.error (Error.convertArgsNoSerializer ""),
            (serializeMessage sampleConstants sampleGs bytecodeRequest).2)) :=
  ⟨⟨by decide, by decide⟩,
   second_serializeMessage_fails sampleConstants sampleGs bytecodeRequest
     (serializeMessage sampleConstants sampleGs bytecodeRequest).2 [(utf8 "V", [])]
     (requestPreamble 32 sampleID (utf8 "traversal") [] 1
              ++ ([0x03, 0x00, 0, 0, 0, 7] ++ utf8 "gremlin")
              ++ [0x15, 0x00, 0, 0, 0, 1, 0, 0, 0, 1, 0x56, 0, 0, 0, 0])
     (by decide) (by rfl) (by rfl)⟩

end Gremlingo
